import Mathlib

/-!
Verification of the go-struct-validator engine against its specification.

The development shallowly embeds the repository's current Go sources:

* `validator.go`            — options, `Validate`, `getStructFields`, the cache
* `field_context.go`        — `fieldContext`, `apply`, `mustParseField`,
                              `extractFunctionInformation`
* the built-in rule catalog — `IsRequired`, `IsMin`, `IsMax`, `IsEnum`,
                              `IsEmail`, `IsAlphaNumeric`, `uuidFn`, `Trim`
* `stack.go` / `fieldCache` — the work-list and the type-keyed schema cache

Go's reflection layer is modelled by explicit type/value syntax trees
(`GoType`, `GoValue`); machine integers are `Int`/`Nat` (no claim depends on
overflow); Go panics are modelled with `Except Panic`.

The date/time validators (`at_least_today`, `today`, ...) read the wall clock
(`time.Now()`), so they are not part of the embedded registry; no claim
depends on them.
-/

deriving instance DecidableEq for Except

namespace StructValidator

/-- Go panics. `validationError` models `panic(newValidationError(...))` /
`panic(errors.New(...))`; `runtime` models Go runtime panics
(slice bounds, reflect misuse). -/
inductive Panic where
  | validationError (msg : String)
  | runtime (msg : String)
deriving DecidableEq, Repr

/-- The subset of `reflect.Kind` the embedded engine uses. -/
inductive GoKind where
  | intK
  | uintK
  | stringK
  | boolK
  | ptrK
  | structK
  | invalidK
deriving DecidableEq, Repr

/-- `reflect.Kind.String()` for the modelled kinds. -/
def GoKind.toGoString : GoKind → String
  | .intK => "int"
  | .uintK => "uint"
  | .stringK => "string"
  | .boolK => "bool"
  | .ptrK => "ptr"
  | .structK => "struct"
  | .invalidK => "invalid"

mutual

/-- Go types, as seen through `reflect.Type`: base kinds, pointers, and named
struct types carrying `Name()`, `PkgPath()` and the declared field list.
(Slices/arrays/maps are not needed by any claim and are omitted.) -/
inductive GoType : Type where
  | stringT
  | intT
  | uintT
  | boolT
  | ptrT (elem : GoType)
  | structT (name : String) (pkgPath : String) (fields : GoFieldList)

/-- Declared fields of a struct type, in declaration order. -/
inductive GoFieldList : Type where
  | fnil
  | fcons (f : GoField) (rest : GoFieldList)

/-- One `reflect.StructField`: name, struct tags (tag-key/value pairs,
`Tag.Lookup` works on them) and the declared type. -/
inductive GoField : Type where
  | mk (name : String) (tags : List (String × String)) (ty : GoType)

end

deriving instance DecidableEq for GoType
deriving instance DecidableEq for GoField
deriving instance DecidableEq for GoFieldList

/-- `reflect.Type.Kind()`. -/
def GoType.kind : GoType → GoKind
  | .stringT => .stringK
  | .intT => .intK
  | .uintT => .uintK
  | .boolT => .boolK
  | .ptrT _ => .ptrK
  | .structT _ _ _ => .structK

/-- `reflect.Type.Elem()` for pointer types (identity elsewhere; the engine
only calls it behind a pointer-kind test). -/
def GoType.elemType : GoType → GoType
  | .ptrT e => e
  | t => t

/-- `reflect.Type.Name()`. -/
def GoType.name : GoType → String
  | .structT n _ _ => n
  | _ => ""

/-- `reflect.Type.PkgPath()`. Base kinds are predeclared (empty path);
locally defined struct types carry their package's path. -/
def GoType.pkgPath : GoType → String
  | .structT _ p _ => p
  | _ => ""

/-- Display string of a type, used in `reflect.Set` panic messages. -/
def GoType.display : GoType → String
  | .stringT => "string"
  | .intT => "int"
  | .uintT => "uint"
  | .boolT => "bool"
  | .ptrT e => "*" ++ e.display
  | .structT n _ _ => n

/-- Go values as held by `reflect.Value`. A pointer value knows its element
type (reflect values are typed); `ptrNil` is a typed nil pointer, `ptrTo` a
pointer with a pointee. `invalidV` is the zero `reflect.Value`. -/
inductive GoValue : Type where
  | strV (s : String)
  | intV (n : Int)
  | uintV (n : Nat)
  | boolV (b : Bool)
  | ptrNil (elemTy : GoType)
  | ptrTo (elemTy : GoType) (pointee : GoValue)
  | invalidV
deriving DecidableEq

/-- `reflect.TypeOf` on a (non-invalid) value. -/
def GoValue.typeOf : GoValue → Option GoType
  | .strV _ => some .stringT
  | .intV _ => some .intT
  | .uintV _ => some .uintT
  | .boolV _ => some .boolT
  | .ptrNil e => some (.ptrT e)
  | .ptrTo e _ => some (.ptrT e)
  | .invalidV => none

/-- `reflect.Value.Kind()`. -/
def GoValue.kind : GoValue → GoKind
  | .strV _ => .stringK
  | .intV _ => .intK
  | .uintV _ => .uintK
  | .boolV _ => .boolK
  | .ptrNil _ => .ptrK
  | .ptrTo _ _ => .ptrK
  | .invalidV => .invalidK

/-- `reflect.Value.IsNil()` for pointers (false elsewhere; the engine only
asks after checking the kind). -/
def GoValue.isNil : GoValue → Bool
  | .ptrNil _ => true
  | _ => false

/-- `reflect.Value.Elem()`: dereference; `Elem` of a nil pointer is the
invalid value. -/
def GoValue.elem : GoValue → GoValue
  | .ptrTo _ v => v
  | _ => .invalidV

/-- `reflect.Value.String()`: the string for string kind, and the special
form `<invalid Value>` / `<T Value>` otherwise (Go does not panic here). -/
def GoValue.goStringVal : GoValue → String
  | .strV s => s
  | .invalidV => "<invalid Value>"
  | v => "<" ++ (match v.typeOf with | some t => t.display | none => "?") ++ " Value>"

/-- `fmt.Sprintf("%v", v)` on a `reflect.Value` prints the underlying value. -/
def GoValue.format : GoValue → String
  | .strV s => s
  | .intV n => toString n
  | .uintV n => toString n
  | .boolV b => if b then "true" else "false"
  | .ptrNil _ => "<nil>"
  | .ptrTo _ v => "&" ++ v.format
  | .invalidV => "<invalid Value>"

/-- `reflect.Zero(t)`: the zero value of a type. Struct zero values are not
needed by any claim (struct-kind fields never reach `mustParseField`) and
are represented by the invalid value. -/
def goZero : GoType → GoValue
  | .stringT => .strV ""
  | .intT => .intV 0
  | .uintT => .uintV 0
  | .boolT => .boolV false
  | .ptrT e => .ptrNil e
  | .structT _ _ _ => .invalidV

mutual

/-- Size measure on types for the work-list termination argument. -/
def GoType.size : GoType → Nat
  | .stringT => 1
  | .intT => 1
  | .uintT => 1
  | .boolT => 1
  | .ptrT e => e.size + 1
  | .structT _ _ fs => fs.size + 1

/-- Size measure on field lists. -/
def GoFieldList.size : GoFieldList → Nat
  | .fnil => 0
  | .fcons f rest => f.size + rest.size

/-- Size measure on fields. -/
def GoField.size : GoField → Nat
  | .mk _ _ ty => ty.size

end

/- ### String helpers

Faithful, kernel-computable models of the `strings` package functions the
engine uses. All separators in the source are single ASCII characters, so
splitting is modelled on characters; Go's byte indices and these character
indices cut at the same occurrences of the ASCII delimiters. -/

/-- `strings.Split(s, sep)` for a one-character separator: `""` yields
`[""]`, empty segments are kept. -/
def splitChar (s : String) (sep : Char) : List String :=
  (s.toList.foldr
    (fun c acc =>
      match acc with
      | [] => [[c]]
      | g :: rest => if c = sep then [] :: (g :: rest) else (c :: g) :: rest)
    [[]]).map (fun l => String.mk l)

/-- `strings.Trim(s, cutset)`: remove leading and trailing characters that
occur in the cutset. -/
def goTrimChars (s : String) (cutset : List Char) : String :=
  String.mk (((s.toList.dropWhile (· ∈ cutset)).reverse.dropWhile (· ∈ cutset)).reverse)

/-- `unicode.IsSpace` over the characters `strings.TrimSpace` can meet in
this development (ASCII whitespace plus the two Latin-1 spaces Go's fast
path covers). -/
def goIsSpace (c : Char) : Bool :=
  c = ' ' || c = '\t' || c = '\n' || c = '\x0b' || c = '\x0c' || c = '\r' ||
    c = '\x85' || c = '\xa0'

/-- `strings.TrimSpace`. -/
def goTrimSpace (s : String) : String :=
  String.mk (((s.toList.dropWhile goIsSpace).reverse.dropWhile goIsSpace).reverse)

/-- `strings.HasSuffix`. -/
def goHasSuffix (s suffix : String) : Bool :=
  List.isSuffixOf suffix.toList s.toList

/-- `strings.ContainsAny(s, "()")` specialised to the parenthesis cutset the
parser uses. -/
def containsAnyParen (s : String) : Bool :=
  s.toList.any (fun c => c = '(' || c = ')')

/-- `strings.Index(s, "(")` as a character index (`-1` when absent). -/
def goIndexOpenParen (s : String) : Int :=
  match s.toList.findIdx? (fun c => c = '(') with
  | some i => (i : Int)
  | none => -1

/-- `strings.LastIndex(s, ")")` as a character index (`-1` when absent). -/
def goLastIndexCloseParen (s : String) : Int :=
  match s.toList.reverse.findIdx? (fun c => c = ')') with
  | some i => ((s.toList.length - 1 - i : Nat) : Int)
  | none => -1

/-- `len` of a Go string (bytes). -/
def goLen (s : String) : Nat := s.utf8ByteSize

/-- Decimal digit value. -/
def digitVal (c : Char) : Option Nat :=
  if '0' ≤ c ∧ c ≤ '9' then some (c.toNat - '0'.toNat) else none

/-- Digits of a non-empty decimal numeral. -/
def digitsToNat : List Char → Option Nat
  | [] => none
  | l => go l 0
where
  go : List Char → Nat → Option Nat
    | [], acc => some acc
    | c :: rest, acc =>
      match digitVal c with
      | none => none
      | some d => go rest (acc * 10 + d)

/-- `strconv.ParseInt(s, 10, 64)`: optional sign then decimal digits.
(Claims do not exercise 64-bit overflow, which is not modelled.) -/
def goParseInt (s : String) : Option Int :=
  match s.toList with
  | '-' :: rest => (digitsToNat rest).map (fun n => -(n : Int))
  | '+' :: rest => (digitsToNat rest).map (fun n => (n : Int))
  | l => (digitsToNat l).map (fun n => (n : Int))

/-- `strconv.ParseUint(s, 10, 64)`: optional plus sign then decimal digits. -/
def goParseUint (s : String) : Option Nat :=
  match s.toList with
  | '+' :: rest => digitsToNat rest
  | l => digitsToNat l

/-- `strconv.FormatInt(n, 10)`. -/
def goFormatInt (n : Int) : String := toString n

/-- `strconv.FormatUint(n, 10)`. -/
def goFormatUint (n : Nat) : String := toString n

/- ### Options, results, contexts (`validator.go`, `context.go`) -/

/-- `ValidationOptions` (validator.go). -/
structure ValidationOptions where
  FilterTagName : String
  TriggerTagName : String
  ValidatorTagName : String
  MessageTagName : String
  LabelTagName : String
  StringAutoTrim : Bool
  StopOnFirstError : Bool
  ExposeValidatorNames : Bool
  NoPanicOnFunctionConflict : Bool
  ExposeEnumValues : Bool
  FlagTagName : String
deriving DecidableEq, Repr

/-- The defaults installed by the package `init()` (validator.go). -/
def defaultOptions : ValidationOptions :=
  { FilterTagName := "filter"
    ValidatorTagName := "validator"
    StringAutoTrim := false
    MessageTagName := "message"
    LabelTagName := "label"
    StopOnFirstError := false
    ExposeValidatorNames := false
    NoPanicOnFunctionConflict := false
    ExposeEnumValues := false
    TriggerTagName := "trigger"
    FlagTagName := "flags" }

/-- `ValidationError` (validator.go): message plus optional delegate error. -/
structure ValidationError where
  Message : String
  ErrorDelegate : Option String := none
deriving DecidableEq, Repr

/-- `newValidationError` (validator.go). -/
def newValidationError (msg : String) : ValidationError :=
  { Message := msg }

/-- `FieldError` (validator.go). -/
structure FieldError where
  Field : String
  Message : String
deriving DecidableEq, Repr

/-- `ValidationResult` (validator.go): validity flag, optional top-level
error, field errors. -/
structure ValidationResult where
  valid : Bool
  Error : Option ValidationError
  FieldErrors : List FieldError
deriving DecidableEq, Repr

/-- `ValidationContext` (context.go) as passed to one rule invocation:
the live value, the resolved kind, pointer/null flags, the rule's static
arguments and the engine options. -/
structure ValidationContext where
  value : GoValue
  valueKind : GoKind
  IsPointer : Bool
  IsNull : Bool
  Args : List String
  Options : ValidationOptions

/-- Outcome of a validator call: the boolean result plus the final
`ctx.ErrorMessage` slot (empty when the validator set none). -/
structure ValidatorOutcome where
  ok : Bool
  errorMessage : String
deriving DecidableEq, Repr

/-- `ValidationContext.GetValue` (context.go): dereference pointers.
`Elem` of a nil pointer is the invalid value. -/
def ValidationContext.GetValue (vc : ValidationContext) : GoValue :=
  if vc.IsPointer then vc.value.elem else vc.value

/-- `ValidationContext.ArgCount`. -/
def ValidationContext.ArgCount (vc : ValidationContext) : Nat := vc.Args.length

/-- `ValidationContext.IsValueOfKind` (variadic membership test). -/
def ValidationContext.IsValueOfKind (vc : ValidationContext) (kinds : List GoKind) : Bool :=
  kinds.contains vc.valueKind

/-- `ValidationContext.ValueMustBeOfKind`: panic on kind mismatch. -/
def ValidationContext.ValueMustBeOfKind (vc : ValidationContext) (kinds : List GoKind) :
    Except Panic Unit :=
  if kinds.contains vc.valueKind then .ok ()
  else .error (.validationError ("unexpected type found: " ++ vc.valueKind.toGoString))

/-- `ValidationContext.MustGetIntArg`: index (runtime panic when out of
range), then `strconv.ParseInt` (validation-error panic on failure). -/
def ValidationContext.MustGetIntArg (vc : ValidationContext) (position : Nat) :
    Except Panic Int :=
  match vc.Args.get? position with
  | none => .error (.runtime "index out of range")
  | some a =>
    match goParseInt a with
    | none => .error (.validationError "error getting integer parmeter value")
    | some n => .ok n

/-- `ValidationContext.MustGetUintArg`. -/
def ValidationContext.MustGetUintArg (vc : ValidationContext) (position : Nat) :
    Except Panic Nat :=
  match vc.Args.get? position with
  | none => .error (.runtime "index out of range")
  | some a =>
    match goParseUint a with
    | none => .error (.validationError "error getting unsigned integer parmeter value")
    | some n => .ok n

/-- Signature of a bound validator: context in, boolean-plus-message out,
possibly panicking. -/
def ValidatorFn : Type := ValidationContext → Except Panic ValidatorOutcome

/-- Signature of a bound filter: context in, replacement value out. -/
def FilterFn : Type := ValidationContext → Except Panic GoValue

/- ### Built-in rule catalog (current half of the validators source) -/

/-- `IsRequired`: null fails with a message, anything else passes. -/
def IsRequired : ValidatorFn := fun ctx =>
  if ctx.IsNull then .ok { ok := false, errorMessage := "this field is requiredd" }
  else .ok { ok := true, errorMessage := "" }

/-- The integer/uint/string kind list `IsMin`/`IsMax` accept (the source
enumerates all reflect int widths; widths collapse onto `intK`/`uintK`
here). -/
def minMaxKinds : List GoKind := [.intK, .uintK, .stringK]

/-- `IsMin`: kind check, argument check, null passes, then compare length
(strings, bytes) or value (ints/uints) against the first argument. -/
def IsMin : ValidatorFn := fun ctx => do
  let _ ← ctx.ValueMustBeOfKind minMaxKinds
  if ctx.ArgCount = 0 then
    .error (.validationError "min: expected length or size parameter")
  else if ctx.IsNull then
    .ok { ok := true, errorMessage := "" }
  else do
    let expected ← ctx.MustGetIntArg 0
    let (m, propertyName) ←
      if ctx.IsValueOfKind [.stringK] then
        .ok (decide (expected ≤ (goLen ctx.GetValue.goStringVal : Int)), "length")
      else if ctx.IsValueOfKind [.intK] then
        match ctx.GetValue with
        | .intV actual => .ok (decide (expected ≤ actual), "value")
        | _ => .ok (decide (expected ≤ 0), "value")
      else if ctx.IsValueOfKind [.uintK] then do
        let expectedU ← ctx.MustGetUintArg 0
        match ctx.GetValue with
        | .uintV actual => .ok (decide (expectedU ≤ actual), "value")
        | _ => .ok (decide (expectedU ≤ 0), "value")
      else
        .ok (false, "value")
    if m then .ok { ok := true, errorMessage := "" }
    else
      .ok { ok := false,
            errorMessage := propertyName ++ " (" ++ ctx.GetValue.format ++
              ") must be at least " ++ (ctx.Args.headD "") }

/-- `IsMax`: mirror image of `IsMin` with `≤` reversed. (The source's int
branch omits `reflect.Int8` and its uint branch omits `reflect.Uint8` from
the dispatch list; with widths collapsed onto one kind this omission is not
observable.) -/
def IsMax : ValidatorFn := fun ctx => do
  let _ ← ctx.ValueMustBeOfKind minMaxKinds
  if ctx.ArgCount = 0 then
    .error (.validationError "max: expected length or size parameter")
  else if ctx.IsNull then
    .ok { ok := true, errorMessage := "" }
  else do
    let expected ← ctx.MustGetIntArg 0
    let (m, propertyName) ←
      if ctx.IsValueOfKind [.stringK] then
        .ok (decide ((goLen ctx.GetValue.goStringVal : Int) ≤ expected), "length")
      else if ctx.IsValueOfKind [.intK] then
        match ctx.GetValue with
        | .intV actual => .ok (decide (actual ≤ expected), "value")
        | _ => .ok (decide ((0 : Int) ≤ expected), "value")
      else if ctx.IsValueOfKind [.uintK] then do
        let expectedU ← ctx.MustGetUintArg 0
        match ctx.GetValue with
        | .uintV actual => .ok (decide (actual ≤ expectedU), "value")
        | _ => .ok (decide ((0 : Nat) ≤ expectedU), "value")
      else
        .ok (false, "value")
    if m then .ok { ok := true, errorMessage := "" }
    else
      .ok { ok := false,
            errorMessage := propertyName ++ " (" ++ ctx.GetValue.format ++
              ") must not exceed " ++ (ctx.Args.headD "") }

/-- `IsEnum`: null passes first; at least one argument required; the value
(formatted in base 10 for ints/uints, raw for strings) must occur among the
arguments; other kinds panic. -/
def IsEnum : ValidatorFn := fun ctx =>
  if ctx.IsNull then .ok { ok := true, errorMessage := "" }
  else if ctx.ArgCount = 0 then
    .error (.validationError "enum: At least one enum value must be specified")
  else do
    let m ←
      if ctx.IsValueOfKind [.intK] then
        match ctx.GetValue with
        | .intV n => .ok (ctx.Args.contains (goFormatInt n))
        | _ => .ok (ctx.Args.contains (goFormatInt 0))
      else if ctx.IsValueOfKind [.uintK] then
        match ctx.GetValue with
        | .uintV n => .ok (ctx.Args.contains (goFormatUint n))
        | _ => .ok (ctx.Args.contains (goFormatUint 0))
      else if ctx.IsValueOfKind [.stringK] then
        .ok (ctx.Args.contains ctx.GetValue.goStringVal)
      else
        .error (.validationError ("enum: unsupported type " ++ ctx.valueKind.toGoString))
    if m then .ok { ok := true, errorMessage := "" }
    else
      .ok { ok := false,
            errorMessage := "invalid value specified" ++
              (if ctx.Options.ExposeEnumValues then
                ". expected any of " ++ String.intercalate "," ctx.Args
              else "") }

/-- Character class of the email username pattern `[a-zA-Z0-9_.]`. -/
def emailUserChar (c : Char) : Bool :=
  ('a' ≤ c && c ≤ 'z') || ('A' ≤ c && c ≤ 'Z') || ('0' ≤ c && c ≤ '9') ||
    c = '_' || c = '.'

/-- Character class `[a-zA-Z0-9]`. -/
def alnumChar (c : Char) : Bool :=
  ('a' ≤ c && c ≤ 'z') || ('A' ≤ c && c ≤ 'Z') || ('0' ≤ c && c ≤ '9')

/-- The anchored pattern `^[a-zA-Z0-9][a-zA-Z0-9_.]+$`. -/
def matchesEmailUser (s : String) : Bool :=
  match s.toList with
  | c :: rest => alnumChar c && !rest.isEmpty && rest.all emailUserChar
  | [] => false

/-- The anchored host-label pattern `^[a-zA-Z0-9][a-zA-Z0-9]+$`
(`emailHostNameMatcher`). -/
def matchesEmailHost (s : String) : Bool :=
  match s.toList with
  | c :: rest => alnumChar c && !rest.isEmpty && rest.all alnumChar
  | [] => false

/-- `IsEmail`: strings only; null passes; split on `@` into exactly two
parts; the user part and every dot-label of the host part must match their
patterns. -/
def IsEmail : ValidatorFn := fun ctx => do
  let _ ← ctx.ValueMustBeOfKind [.stringK]
  if ctx.IsNull then .ok { ok := true, errorMessage := "" }
  else
    let email := ctx.GetValue.goStringVal
    let parts := splitChar email '@'
    if parts.length ≠ 2 then .ok { ok := false, errorMessage := "" }
    else
      let user := parts.headD ""
      let host := (parts.getD 1 "")
      if ¬ matchesEmailUser user then .ok { ok := false, errorMessage := "" }
      else if (splitChar host '.').all (fun d => matchesEmailHost d) then
        .ok { ok := true, errorMessage := "" }
      else .ok { ok := false, errorMessage := "" }

/-- The anchored pattern `^[a-z0-9]+$` of `IsAlphaNumeric`. -/
def matchesAlphaNumLower (s : String) : Bool :=
  !s.toList.isEmpty && s.toList.all (fun c => ('a' ≤ c && c ≤ 'z') || ('0' ≤ c && c ≤ '9'))

/-- `IsAlphaNumeric`: strings only; null passes; lowercase alphanumeric. -/
def IsAlphaNumeric : ValidatorFn := fun ctx => do
  let _ ← ctx.ValueMustBeOfKind [.stringK]
  if ctx.IsNull then .ok { ok := true, errorMessage := "" }
  else if matchesAlphaNumLower ctx.GetValue.goStringVal then
    .ok { ok := true, errorMessage := "" }
  else .ok { ok := false, errorMessage := "must be alphanumeric" }

/-- Interface of the external `github.com/google/uuid` library as the engine
uses it: parsing either fails or yields the UUID's version number. The
library itself is an external collaborator (spec §1 places the rule
catalog's internals out of scope), so it enters the model only through this
parameter; every claim settled below is decided by engine code that runs
before any parse. -/
def UuidParseFn : Type := String → Option Nat

/-- `uuidFn`: strings only; **null fails** (this is the one rule besides
`required` that rejects null, and it sets no error message); otherwise
parse and compare the version. -/
def uuidFn (up : UuidParseFn) (version : Nat) : ValidatorFn := fun ctx => do
  let _ ← ctx.ValueMustBeOfKind [.stringK]
  if ctx.IsNull then .ok { ok := false, errorMessage := "" }
  else
    match up ctx.GetValue.goStringVal with
    | none => .ok { ok := false, errorMessage := "invalid uuid format" }
    | some v =>
      if v = version then .ok { ok := true, errorMessage := "" }
      else
        .ok { ok := false,
              errorMessage := "expectedd UUIDv" ++ toString version ++
                " but found UUIDv" ++ toString v }

/-- `Trim`: strings only. A non-null pointer is dereferenced, trimmed and
returned as a fresh `*string`; otherwise (plain strings, but also **null
pointers**) the result of `GetValue().String()` is trimmed and returned as
a plain string. -/
def Trim : FilterFn := fun ctx => do
  let _ ← ctx.ValueMustBeOfKind [.stringK]
  if ctx.IsPointer && !ctx.IsNull then
    .ok (.ptrTo .stringT (.strV (goTrimSpace ctx.GetValue.goStringVal)))
  else
    .ok (.strV (goTrimSpace ctx.GetValue.goStringVal))

/-- The `validatorFunctions` map: name-to-callable bindings of the built-in
validators (date/time rules, which read the wall clock, are outside the
model; no claim uses them). -/
def validatorLookup (up : UuidParseFn) : String → Option ValidatorFn
  | "required" => some IsRequired
  | "alphanum" => some IsAlphaNumeric
  | "uuid1" => some (uuidFn up 1)
  | "uuid2" => some (uuidFn up 2)
  | "uuid3" => some (uuidFn up 3)
  | "uuid4" => some (uuidFn up 4)
  | "min" => some IsMin
  | "max" => some IsMax
  | "enum" => some IsEnum
  | "email" => some IsEmail
  | _ => none

/-- The `filterFunctions` map. -/
def filterLookup : String → Option FilterFn
  | "trim" => some Trim
  | _ => none

/- ### Rule-chain parsing and field compilation (`field_context.go`) -/

/-- `fieldValueValidator` (validator.go): a bound validator with its static
arguments. -/
structure FieldValueValidator where
  fn : ValidatorFn
  name : String
  args : List String

/-- `fieldValueFilter`: a bound filter with its static arguments. -/
structure FieldValueFilter where
  fn : FilterFn
  name : String
  args : List String

/-- `AllowZero` (flags.go): the `allow_zero` behavioural flag
(`ValidationFlag` is a string type in the source). -/
def AllowZero : String := "allow_zero"

/-- `fieldContext` (field_context.go): the compiled per-field spec. -/
structure FieldContext where
  filters : List FieldValueFilter
  validators : List FieldValueValidator
  fieldName : String
  fieldKind : GoKind
  fieldLabel : String
  fieldMessageTemplate : String
  hasLabel : Bool
  hasMessagTemplate : Bool
  triggers : List String
  flags : List String
  zeroValue : GoValue

/-- `fieldContext.isFlagSet`. -/
def FieldContext.isFlagSet (fc : FieldContext) (flag : String) : Bool :=
  fc.flags.contains flag

/-- `fieldContext.isZero`: `fc.zeroValue.Equal(v)`. For the scalar and
typed-nil values that can appear here, `reflect.Value.Equal` coincides with
structural equality. -/
def FieldContext.isZero (fc : FieldContext) (v : GoValue) : Bool :=
  fc.zeroValue = v

/-- `fieldContext.activate`: a trigger activates the field if it is listed,
or if the field lists `"all"`. -/
def FieldContext.activate (fc : FieldContext) (trigger : String) : Bool :=
  if ¬ fc.triggers.contains trigger then fc.triggers.contains "all" else true

/-- The unexported-field test of `mustParseField`:
`field.Name[0] >= 'a' && field.Name[0] <= 'z'`. (Field names are never
empty in Go; the empty case is unreachable.) -/
def isLowerInitial (s : String) : Bool :=
  match s.toList with
  | c :: _ => decide ('a' ≤ c ∧ c ≤ 'z')
  | [] => false

/-- `extractFunctionInformation` (field_context.go). A `()` suffix strips
every leading/trailing parenthesis (`strings.Trim` with cutset `"()"`);
otherwise, when any parenthesis occurs, the name is the text before the
first `(` and the arguments are the comma-split text between the first `(`
and the last `)` — and when that slicing is ill-formed (no `(`, or the last
`)` not after the first `(`), Go panics with a slice-bounds runtime error.
Bare names carry no arguments. -/
def extractFunctionInformation (funcDefinition : String) :
    Except Panic (String × List String) :=
  if goHasSuffix funcDefinition "()" then
    .ok (goTrimChars funcDefinition ['(', ')'], [])
  else if containsAnyParen funcDefinition then
    let openParenthesisPosition := goIndexOpenParen funcDefinition
    let closeParenthesisPosition := goLastIndexCloseParen funcDefinition
    if openParenthesisPosition < 0 then
      .error (.runtime "slice bounds out of range")
    else if closeParenthesisPosition < openParenthesisPosition + 1 then
      .error (.runtime "slice bounds out of range")
    else
      let op := openParenthesisPosition.toNat
      let cp := closeParenthesisPosition.toNat
      .ok (String.mk (funcDefinition.toList.take op),
        splitChar (String.mk ((funcDefinition.toList.drop (op + 1)).take (cp - (op + 1)))) ',')
  else
    .ok (funcDefinition, [])

/-- `strings.Tag.Lookup` over the modelled tag list. -/
def tagLookup (tags : List (String × String)) (key : String) : Option String :=
  (tags.find? (fun p => p.1 = key)).map (fun p => p.2)

/-- The validator-binding loop of `mustParseField`: parse each token, look
the name up in `validatorFunctions`, panic when absent. -/
def bindValidators (up : UuidParseFn) (fieldName : String) :
    List String → Except Panic (List FieldValueValidator)
  | [] => .ok []
  | function :: rest => do
    let (nm, args) ← extractFunctionInformation function
    match validatorLookup up nm with
    | none =>
      .error (.validationError
        ("validator `" ++ nm ++ "` referenced by field " ++ fieldName ++ " not found"))
    | some v => do
      let more ← bindValidators up fieldName rest
      .ok ({ fn := v, name := nm, args := args } :: more)

/-- The filter-binding loop of `mustParseField`. -/
def bindFilters (fieldName : String) :
    List String → Except Panic (List FieldValueFilter)
  | [] => .ok []
  | function :: rest => do
    let (nm, args) ← extractFunctionInformation function
    match filterLookup nm with
    | none =>
      .error (.validationError
        ("filter " ++ nm ++ " referenced by field " ++ fieldName ++ " not found"))
    | some v => do
      let more ← bindFilters fieldName rest
      .ok ({ fn := v, name := nm, args := args } :: more)

/-- `mustParseField` (field_context.go): skip lowercase-initial (unexported)
fields; skip fields with neither validator nor filter tags; otherwise build
the `fieldContext` — precomputed zero value (of the element type for
pointers), resolved element kind for wrapper types, triggers (comma-split,
defaulting to `all`), label/message template, eagerly bound validator and
filter chains, and trimmed flag list. -/
def mustParseField (up : UuidParseFn) (field : GoField) (opts : ValidationOptions) :
    Except Panic (Option FieldContext) :=
  match field with
  | .mk fieldName tags fieldTy =>
    if isLowerInitial fieldName then .ok none
    else
      let flagTagValues := tagLookup tags opts.FlagTagName
      let filterTagValues := tagLookup tags opts.FilterTagName
      let triggerTagValues := tagLookup tags opts.TriggerTagName
      let validatorTagValues := tagLookup tags opts.ValidatorTagName
      let messageTemplate := tagLookup tags opts.MessageTagName
      let label := tagLookup tags opts.LabelTagName
      if filterTagValues.isNone && validatorTagValues.isNone then .ok none
      else
        let zeroValue :=
          if fieldTy.kind = .ptrK then goZero fieldTy.elemType else goZero fieldTy
        let fieldKind :=
          if [GoKind.ptrK].contains fieldTy.kind then fieldTy.elemType.kind
          else fieldTy.kind
        let triggers :=
          match triggerTagValues with
          | some tv => splitChar tv ','
          | none => ["all"]
        let fieldLabel := match label with | some l => l | none => fieldName
        let msgTemplate := match messageTemplate with | some m => m | none => ""
        do
          let validators ←
            match validatorTagValues with
            | some vt => bindValidators up fieldName (splitChar vt '|')
            | none => .ok []
          let filters ←
            match filterTagValues with
            | some ft => bindFilters fieldName (splitChar ft '|')
            | none => .ok []
          let flags :=
            match flagTagValues with
            | some fv => (splitChar fv '|').map goTrimSpace
            | none => []
          .ok (some
            { validators := validators
              filters := filters
              fieldName := fieldName
              fieldKind := fieldKind
              fieldLabel := fieldLabel
              fieldMessageTemplate := msgTemplate
              hasLabel := label.isSome
              hasMessagTemplate := messageTemplate.isSome
              triggers := triggers
              flags := flags
              zeroValue := zeroValue })

/- ### Schema compilation (`validator.go`: `getStructFields`, `stack.go`,
`fieldCache`) -/

/-- Total size of a work-list of types (termination measure for the
traversal loop). -/
def stackSize : List GoType → Nat
  | [] => 0
  | t :: rest => t.size + stackSize rest

theorem stackSize_append (a b : List GoType) :
    stackSize (a ++ b) = stackSize a + stackSize b := by
  induction a with
  | nil => simp [stackSize]
  | cons x xs ih => simp [stackSize, ih]; omega

theorem stackSize_reverse (a : List GoType) : stackSize a.reverse = stackSize a := by
  induction a with
  | nil => rfl
  | cons x xs ih => simp [stackSize, List.reverse_cons, stackSize_append, ih]; omega

/-- The struct-kind field types one pass of the `getStructFields` loop
pushes, in encounter (declaration) order. -/
def pushedOf : GoFieldList → List GoType
  | .fnil => []
  | .fcons (.mk _ _ ty) rest =>
    match ty with
    | .structT a b c => .structT a b c :: pushedOf rest
    | _ => pushedOf rest

/-- The field contexts one pass of the loop appends: every non-struct field
is offered to `mustParseField`, in declaration order (struct-kind fields are
pushed instead, never parsed). -/
def parseLeaves (up : UuidParseFn) (opts : ValidationOptions) :
    GoFieldList → Except Panic (List FieldContext)
  | .fnil => .ok []
  | .fcons (.mk n tags ty) rest =>
    match ty with
    | .structT _ _ _ => parseLeaves up opts rest
    | _ => do
      let fc? ← mustParseField up (.mk n tags ty) opts
      let cs ← parseLeaves up opts rest
      match fc? with
      | some fc => .ok (fc :: cs)
      | none => .ok cs

theorem pushedOf_size_le : (fs : GoFieldList) → stackSize (pushedOf fs) ≤ fs.size
  | .fnil => by simp [pushedOf, GoFieldList.size, stackSize]
  | .fcons (.mk n tags ty) rest => by
    have ih := pushedOf_size_le rest
    cases ty <;>
      simp [pushedOf, GoFieldList.size, GoField.size, stackSize, GoType.size] <;> omega

theorem loop_step_lt (a b : String) (fs : GoFieldList) (rest : List GoType) :
    stackSize ((pushedOf fs).reverse ++ rest) < stackSize (GoType.structT a b fs :: rest) := by
  have h1 := pushedOf_size_le fs
  have h2 := stackSize_append (pushedOf fs).reverse rest
  have h3 := stackSize_reverse (pushedOf fs)
  simp [stackSize, GoType.size]
  omega

/-- The work-list loop of `getStructFields` (`stack.go` push/pop: pushes go
on top, so the struct-kind fields of the popped type are processed LIFO —
`.reverse` puts the most recently pushed type first). Each pass appends the
popped struct's parsed leaf contexts to the accumulator. Popping a
non-struct type panics in `structType.NumField()`. -/
def getStructFieldsLoop (up : UuidParseFn) (opts : ValidationOptions) :
    List GoType → List FieldContext → Except Panic (List FieldContext)
  | [], acc => .ok acc
  | t :: rest, acc =>
    match t with
    | .structT _ _ fs =>
      match parseLeaves up opts fs with
      | .error p => .error p
      | .ok cs => getStructFieldsLoop up opts ((pushedOf fs).reverse ++ rest) (acc ++ cs)
    | _ => .error (.runtime "reflect: NumField of non-struct type")
termination_by stack _ => stackSize stack
decreasing_by
  apply loop_step_lt

/-- The type-identity key of `getStructFields`: `PkgPath() + "." + Name()`
when the package path is non-empty, and the empty string otherwise. -/
def typeKey (t : GoType) : String :=
  let fullyQualifiedStructName := t.pkgPath
  if fullyQualifiedStructName.length ≠ 0 then fullyQualifiedStructName ++ "." ++ t.name
  else fullyQualifiedStructName

/-- `fieldCache` (a `sync.Map` in the source): key-to-schema associations;
`Store` prepends (replacement semantics via first-match `Get`). Concurrency
is outside this model. -/
def Cache : Type := List (String × List FieldContext)

/-- `fieldCache.Get`. -/
def cacheGet (c : Cache) (path : String) : Option (List FieldContext) :=
  ((c : List (String × List FieldContext)).find? (fun p => p.1 = path)).map (fun p => p.2)

/-- `fieldCache.Store`. -/
def cacheStore (c : Cache) (path : String) (fcs : List FieldContext) : Cache :=
  ((path, fcs) :: (c : List (String × List FieldContext)) : List (String × List FieldContext))

/-- `getStructFields` (validator.go): compute the type key, consult the
cache, otherwise run the work-list traversal from the root type and store
the result. -/
def getStructFields (up : UuidParseFn) (opts : ValidationOptions) (cache : Cache)
    (t : GoType) : Except Panic (List FieldContext × Cache) :=
  let key := typeKey t
  match cacheGet cache key with
  | some contexts => .ok (contexts, cache)
  | none =>
    match getStructFieldsLoop up opts [t] [] with
    | .error p => .error p
    | .ok contexts => .ok (contexts, cacheStore cache key contexts)

/- ### Rule-chain execution (`field_context.go`: `apply`; `validator.go`:
`Validate`) -/

/-- The live field storage of the struct under validation: name/value
pairs, in declaration order. (`FieldByName` in `apply` resolves against
these top-level slots.) -/
abbrev Slots := List (String × GoValue)

/-- `structValue.FieldByName(name)`. -/
def lookupSlot (slots : Slots) (fieldName : String) : Option GoValue :=
  (slots.find? (fun p => p.1 = fieldName)).map (fun p => p.2)

/-- Write-back of `value.Set(...)` into the field's storage location. -/
def updateSlot (slots : Slots) (fieldName : String) (v : GoValue) : Slots :=
  slots.map (fun p => if p.1 = fieldName then (p.1, v) else p)

/-- `reflect.Value.Set`: the new value's type must equal the slot's static
type (identical types are the assignability case that can arise here),
otherwise Go panics. -/
def goSet (targetCurrent : GoValue) (newValue : GoValue) : Except Panic GoValue :=
  match targetCurrent.typeOf, newValue.typeOf with
  | some tt, some nt =>
    if nt = tt then .ok newValue
    else .error (.runtime ("reflect.Set: value of type " ++ nt.display ++
      " is not assignable to type " ++ tt.display))
  | none, _ => .error (.runtime "reflect: Set on invalid Value")
  | _, none => .error (.runtime "reflect: Set using zero Value argument")

/-- The `FieldError` built by `apply` when a validator returns false:
message priority is the field's fixed template, then the message the
validator set on the context, then a generated default from the label
(plus the rule name when `ExposeValidatorNames` is on). -/
def buildFieldError (fc : FieldContext) (opts : ValidationOptions)
    (validatorName : String) (ctxMsg : String) : FieldError :=
  { Field := fc.fieldLabel
    Message :=
      if fc.hasMessagTemplate then fc.fieldMessageTemplate
      else if 0 < ctxMsg.length then ctxMsg
      else
        fc.fieldLabel ++ ": field validation failed" ++
          (if opts.ExposeValidatorNames then " using function " ++ validatorName else "") }

/-- The validator loop of `apply`: run each bound validator in declared
order on a fresh context over the (unchanged) field value; collect one
`FieldError` per failure; with `StopOnFirstError` the loop returns right
after the first failure (the Boolean records that early return, which also
skips the filters). -/
def runValidators (fc : FieldContext) (opts : ValidationOptions)
    (ispointer isnull : Bool) (value : GoValue) :
    List FieldValueValidator → Except Panic (List FieldError × Bool)
  | [] => .ok ([], false)
  | v :: rest =>
    let ctx : ValidationContext :=
      { value := value, valueKind := fc.fieldKind, IsPointer := ispointer,
        IsNull := isnull, Args := v.args, Options := opts }
    match v.fn ctx with
    | .error p => .error p
    | .ok out =>
      if out.ok then runValidators fc opts ispointer isnull value rest
      else
        let fe := buildFieldError fc opts v.name out.errorMessage
        if opts.StopOnFirstError then .ok ([fe], true)
        else
          match runValidators fc opts ispointer isnull value rest with
          | .error p => .error p
          | .ok (errs, stopped) => .ok (fe :: errs, stopped)

/-- The filter loop of `apply`: run each bound filter in declared order on a
fresh context over the current value, writing each result back
(`value.Set(newValue)`), so later filters see earlier results. The
pointer/null flags are the ones computed at the start of `apply`. -/
def runFilters (fc : FieldContext) (opts : ValidationOptions)
    (ispointer isnull : Bool) :
    List FieldValueFilter → GoValue → Except Panic GoValue
  | [], value => .ok value
  | f :: rest, value =>
    let ctx : ValidationContext :=
      { value := value, valueKind := fc.fieldKind, IsPointer := ispointer,
        IsNull := isnull, Args := f.args, Options := opts }
    match f.fn ctx with
    | .error p => .error p
    | .ok newValue =>
      match goSet value newValue with
      | .error p => .error p
      | .ok v2 => runFilters fc opts ispointer isnull rest v2

/-- `value.Kind() == reflect.Ptr` as computed at the top of `apply`. -/
def isPointerOf (v : GoValue) : Bool := v.kind = .ptrK

/-- The `isnull` flag of `apply`: nil-ness, asked only for pointers. -/
def isNullOf (v : GoValue) : Bool := if isPointerOf v then v.isNil else false

/-- The `AllowZero` skip condition of `apply`: flag set, and the value is a
nil pointer, a pointer to the precomputed zero, or itself the precomputed
zero. -/
def allowZeroSkip (fc : FieldContext) (value : GoValue) : Bool :=
  fc.isFlagSet AllowZero &&
    (if value.kind = .ptrK then (value.isNil || fc.isZero value.elem)
     else fc.isZero value)

/-- `fieldContext.apply` (field_context.go): resolve the field's live value;
compute pointer/null state; with the `AllowZero` flag, a nil pointer, a
pointee equal to the precomputed zero, or a value equal to the precomputed
zero returns immediately with no errors and no writes; otherwise run the
validators, return early (before any filter) when `StopOnFirstError`
truncated the chain, and finally run the filters, writing the final value
back into the field. -/
def FieldContext.apply (fc : FieldContext) (structValue : Option Slots)
    (opts : ValidationOptions) : Except Panic (List FieldError × Option Slots) :=
  match structValue with
  | none => .error (.runtime "reflect: call of reflect.Value.FieldByName on zero Value")
  | some slots =>
    match lookupSlot slots fc.fieldName with
    | none => .error (.runtime "reflect: call of reflect.Value.Addr on zero Value")
    | some value =>
      let ispointer := isPointerOf value
      let isnull := isNullOf value
      if allowZeroSkip fc value then
        .ok ([], some slots)
      else
        match runValidators fc opts ispointer isnull value fc.validators with
        | .error p => .error p
        | .ok (errorList, stopped) =>
          if stopped then .ok (errorList, some slots)
          else
            match runFilters fc opts ispointer isnull fc.filters value with
            | .error p => .error p
            | .ok v2 => .ok (errorList, some (updateSlot slots fc.fieldName v2))

/-- The per-field loop of `Validate`: skip fields the activation trigger
does not select, apply the rest in schema order, appending their field
errors. -/
def runFields (opts : ValidationOptions) (activationTrigger : String) :
    List FieldContext → Option Slots → Except Panic (List FieldError × Option Slots)
  | [], slots => .ok ([], slots)
  | fc :: rest, slots =>
    if ¬ fc.activate activationTrigger then runFields opts activationTrigger rest slots
    else
      match fc.apply slots opts with
      | .error p => .error p
      | .ok (errs, slots2) =>
        match runFields opts activationTrigger rest slots2 with
        | .error p => .error p
        | .ok (errs2, slots3) => .ok (errs ++ errs2, slots3)

/-- The dynamic argument handed to `Validate` (`structPtr interface{}`): its
reflected type, and — when it is a pointer — the pointed-to struct's field
slots (`none` models a nil pointer, whose `Elem()` is the invalid value). -/
structure GoArg where
  ty : GoType
  pointee : Option Slots

/-- `Validate` (validator.go): reject non-pointer inputs with a structural
error; otherwise compile (cache-checked) the pointed-to type, select fields
by the activation trigger (default `"all"`), run them, and report — `valid`
holds iff the top-level error is nil and the field-error list is empty. -/
def Validate (up : UuidParseFn) (opts : ValidationOptions) (cache : Cache)
    (arg : GoArg) (trigger : List String) :
    Except Panic (ValidationResult × Option Slots × Cache) :=
  let t := arg.ty
  let res0 : ValidationResult := { valid := false, Error := none, FieldErrors := [] }
  if t.kind ≠ .ptrK then
    .ok ({ res0 with
           Error := some (newValidationError
             ("Invalid input type. Expected struct pointer but found " ++
               t.kind.toGoString)) },
         arg.pointee, cache)
  else
    match getStructFields up opts cache t.elemType with
    | .error p => .error p
    | .ok (fieldContexts, cache2) =>
      let activationTrigger := match trigger with | [] => "all" | tr :: _ => tr
      match runFields opts activationTrigger fieldContexts arg.pointee with
      | .error p => .error p
      | .ok (fieldErrors, slots2) =>
        let res1 := { res0 with FieldErrors := fieldErrors }
        .ok ({ res1 with valid := res1.Error.isNone && res1.FieldErrors.isEmpty },
             slots2, cache2)

/-- Projection of `Validate` onto the returned `ValidationResult`. -/
def validateResult (up : UuidParseFn) (opts : ValidationOptions) (cache : Cache)
    (arg : GoArg) (trigger : List String) : Except Panic ValidationResult :=
  (Validate up opts cache arg trigger).map (fun r => r.1)

/-- Projection of `Validate` onto the struct's field slots after the run. -/
def validateSlots (up : UuidParseFn) (opts : ValidationOptions) (cache : Cache)
    (arg : GoArg) (trigger : List String) : Except Panic (Option Slots) :=
  (Validate up opts cache arg trigger).map (fun r => r.2.1)

/- ### Fuelled evaluation twins

`getStructFieldsLoop` is defined by well-founded recursion, which the
kernel cannot unfold during `decide`. The fuelled twin below is structurally
recursive and provably equal to the loop whenever the fuel exceeds the
work-list measure; concrete evaluations rewrite through it. -/

/-- Structurally recursive twin of `getStructFieldsLoop`. -/
def getStructFieldsLoopFueled (up : UuidParseFn) (opts : ValidationOptions) :
    Nat → List GoType → List FieldContext → Except Panic (List FieldContext)
  | 0, _, _ => .error (.runtime "fuel exhausted")
  | _ + 1, [], acc => .ok acc
  | n + 1, t :: rest, acc =>
    match t with
    | .structT _ _ fs =>
      match parseLeaves up opts fs with
      | .error p => .error p
      | .ok cs =>
        getStructFieldsLoopFueled up opts n ((pushedOf fs).reverse ++ rest) (acc ++ cs)
    | _ => .error (.runtime "reflect: NumField of non-struct type")

theorem getStructFieldsLoop_eq_fueled (up : UuidParseFn) (opts : ValidationOptions)
    (n : Nat) (stack : List GoType) (acc : List FieldContext)
    (h : stackSize stack < n) :
    getStructFieldsLoopFueled up opts n stack acc = getStructFieldsLoop up opts stack acc := by
  induction n generalizing stack acc with
  | zero => omega
  | succ m ih =>
    cases stack with
    | nil => rw [getStructFieldsLoop.eq_def]; simp [getStructFieldsLoopFueled]
    | cons t rest =>
      cases t with
      | structT a b fs =>
        rw [getStructFieldsLoop.eq_def]
        simp only [getStructFieldsLoopFueled]
        cases hp : parseLeaves up opts fs with
        | error p => simp
        | ok cs =>
          simp only
          apply ih
          have h1 := loop_step_lt a b fs rest
          simp [stackSize, GoType.size] at h h1 ⊢
          omega
      | stringT => rw [getStructFieldsLoop.eq_def]; simp [getStructFieldsLoopFueled]
      | intT => rw [getStructFieldsLoop.eq_def]; simp [getStructFieldsLoopFueled]
      | uintT => rw [getStructFieldsLoop.eq_def]; simp [getStructFieldsLoopFueled]
      | boolT => rw [getStructFieldsLoop.eq_def]; simp [getStructFieldsLoopFueled]
      | ptrT e => rw [getStructFieldsLoop.eq_def]; simp [getStructFieldsLoopFueled]

/-- `getStructFields` with the fuelled loop. -/
def getStructFieldsFueled (fuel : Nat) (up : UuidParseFn) (opts : ValidationOptions)
    (cache : Cache) (t : GoType) : Except Panic (List FieldContext × Cache) :=
  let key := typeKey t
  match cacheGet cache key with
  | some contexts => .ok (contexts, cache)
  | none =>
    match getStructFieldsLoopFueled up opts fuel [t] [] with
    | .error p => .error p
    | .ok contexts => .ok (contexts, cacheStore cache key contexts)

theorem getStructFields_eq_fueled (fuel : Nat) (up : UuidParseFn)
    (opts : ValidationOptions) (cache : Cache) (t : GoType)
    (h : t.size < fuel) :
    getStructFields up opts cache t = getStructFieldsFueled fuel up opts cache t := by
  unfold getStructFields getStructFieldsFueled
  rw [getStructFieldsLoop_eq_fueled]
  simp [stackSize]
  omega

/-- `Validate` with the fuelled compiler. -/
def ValidateFueled (fuel : Nat) (up : UuidParseFn) (opts : ValidationOptions)
    (cache : Cache) (arg : GoArg) (trigger : List String) :
    Except Panic (ValidationResult × Option Slots × Cache) :=
  let t := arg.ty
  let res0 : ValidationResult := { valid := false, Error := none, FieldErrors := [] }
  if t.kind ≠ .ptrK then
    .ok ({ res0 with
           Error := some (newValidationError
             ("Invalid input type. Expected struct pointer but found " ++
               t.kind.toGoString)) },
         arg.pointee, cache)
  else
    match getStructFieldsFueled fuel up opts cache t.elemType with
    | .error p => .error p
    | .ok (fieldContexts, cache2) =>
      let activationTrigger := match trigger with | [] => "all" | tr :: _ => tr
      match runFields opts activationTrigger fieldContexts arg.pointee with
      | .error p => .error p
      | .ok (fieldErrors, slots2) =>
        let res1 := { res0 with FieldErrors := fieldErrors }
        .ok ({ res1 with valid := res1.Error.isNone && res1.FieldErrors.isEmpty },
             slots2, cache2)

theorem Validate_eq_fueled (fuel : Nat) (up : UuidParseFn) (opts : ValidationOptions)
    (cache : Cache) (arg : GoArg) (trigger : List String)
    (h : arg.ty.elemType.size < fuel) :
    Validate up opts cache arg trigger = ValidateFueled fuel up opts cache arg trigger := by
  unfold Validate ValidateFueled
  simp only [getStructFields_eq_fueled fuel up opts cache arg.ty.elemType h]

theorem validateResult_eq_fueled (fuel : Nat) (up : UuidParseFn)
    (opts : ValidationOptions) (cache : Cache) (arg : GoArg) (trigger : List String)
    (h : arg.ty.elemType.size < fuel) :
    validateResult up opts cache arg trigger =
      (ValidateFueled fuel up opts cache arg trigger).map (fun r => r.1) := by
  unfold validateResult
  rw [Validate_eq_fueled fuel up opts cache arg trigger h]

theorem validateSlots_eq_fueled (fuel : Nat) (up : UuidParseFn)
    (opts : ValidationOptions) (cache : Cache) (arg : GoArg) (trigger : List String)
    (h : arg.ty.elemType.size < fuel) :
    validateSlots up opts cache arg trigger =
      (ValidateFueled fuel up opts cache arg trigger).map (fun r => r.2.1) := by
  unfold validateSlots
  rw [Validate_eq_fueled fuel up opts cache arg trigger h]

/- ### Test-bench helpers shared by the claims -/

/-- A concrete instance of the external UUID parser. The claims never reach
a parse: `uuidFn`'s null handling — the engine code under scrutiny — runs
first, so any instance serves (see `uuidFn_null`). -/
def uuidParseStub : UuidParseFn := fun _ => none

/-- Compile a single field and apply it to a record's slots: the
`mustParseField`-then-`apply` pipeline that `Validate` performs per field. -/
def compileThenApply (up : UuidParseFn) (field : GoField) (opts : ValidationOptions)
    (slots : Slots) : Except Panic (List FieldError × Option Slots) :=
  match mustParseField up field opts with
  | .error p => .error p
  | .ok none => .ok ([], some slots)
  | .ok (some fc) => fc.apply (some slots) opts

/-- Field errors of an `apply`-style outcome (empty when it panicked). -/
def errorsOf (r : Except Panic (List FieldError × Option Slots)) : List FieldError :=
  match r with
  | .ok (e, _) => e
  | .error _ => []

/-- Validator names of a compiled field (empty when compilation fails or
skips the field). -/
def compiledValidatorNames (up : UuidParseFn) (field : GoField)
    (opts : ValidationOptions) : List String :=
  match mustParseField up field opts with
  | .ok (some fc) => fc.validators.map (fun v => v.name)
  | _ => []

/-- Argument lists of a compiled field's validators. -/
def compiledValidatorArgs (up : UuidParseFn) (field : GoField)
    (opts : ValidationOptions) : List (List String) :=
  match mustParseField up field opts with
  | .ok (some fc) => fc.validators.map (fun v => v.args)
  | _ => []

/-- Two `Validate` calls in sequence through the shared cache (the second
call sees the cache the first one populated); yields the two validity
flags. -/
def validateTwice (up : UuidParseFn) (opts : ValidationOptions)
    (arg1 arg2 : GoArg) : Option (Bool × Bool) :=
  match Validate up opts [] arg1 [] with
  | .ok (r1, _, cache1) =>
    match Validate up opts cache1 arg2 [] with
    | .ok (r2, _, _) => some (r1.valid, r2.valid)
    | .error _ => none
  | .error _ => none

/-- Fuelled twin of `validateTwice`. -/
def validateTwiceFueled (fuel : Nat) (up : UuidParseFn) (opts : ValidationOptions)
    (arg1 arg2 : GoArg) : Option (Bool × Bool) :=
  match ValidateFueled fuel up opts [] arg1 [] with
  | .ok (r1, _, cache1) =>
    match ValidateFueled fuel up opts cache1 arg2 [] with
    | .ok (r2, _, _) => some (r1.valid, r2.valid)
    | .error _ => none
  | .error _ => none

theorem validateTwice_eq_fueled (fuel : Nat) (up : UuidParseFn)
    (opts : ValidationOptions) (arg1 arg2 : GoArg)
    (h1 : arg1.ty.elemType.size < fuel) (h2 : arg2.ty.elemType.size < fuel) :
    validateTwice up opts arg1 arg2 = validateTwiceFueled fuel up opts arg1 arg2 := by
  unfold validateTwice validateTwiceFueled
  rw [Validate_eq_fueled fuel up opts [] arg1 [] h1]
  cases ValidateFueled fuel up opts [] arg1 [] with
  | error p => rfl
  | ok r =>
    simp only
    rw [Validate_eq_fueled fuel up opts r.2.2 arg2 [] h2]

/-- Field name of a declared field. -/
def GoField.fname : GoField → String
  | .mk n _ _ => n

/- ### Concrete record types used as test benches by the claims -/

/-- A nullable string field whose chain is just `uuid4` (no `required`). -/
def uuidField : GoField := .mk "Id" [("validator", "uuid4")] (.ptrT .stringT)

/-- Record type carrying `uuidField`. -/
def uuidTy : GoType := .structT "UuidStruct" "main" (.fcons uuidField .fnil)

/-- A `*UuidStruct` whose `Id` is nil. -/
def uuidArg : GoArg := { ty := .ptrT uuidTy, pointee := some [("Id", .ptrNil .stringT)] }

/-- `TestOptional`'s field: `Optional *string validator:"min(10)|max(20)"`. -/
def c2FieldA : GoField := .mk "Optional" [("validator", "min(10)|max(20)")] (.ptrT .stringT)

/-- `TestOptional`'s local `MyStruct`. -/
def c2TyA : GoType :=
  .structT "MyStruct" "github.com/SharkFourSix/go-struct-validator" (.fcons c2FieldA .fnil)

/-- `TestRequired`'s field: `Optional *string validator:"required|min(10)|max(20)"`. -/
def c2FieldB : GoField :=
  .mk "Optional" [("validator", "required|min(10)|max(20)")] (.ptrT .stringT)

/-- `TestRequired`'s local `MyStruct`: a distinct type with the same name
and package path as `c2TyA`. -/
def c2TyB : GoType :=
  .structT "MyStruct" "github.com/SharkFourSix/go-struct-validator" (.fcons c2FieldB .fnil)

/-- A `*MyStruct` (the `TestOptional` shape) with a nil `Optional`. -/
def c2ArgA : GoArg := { ty := .ptrT c2TyA, pointee := some [("Optional", .ptrNil .stringT)] }

/-- A `*MyStruct` (the `TestRequired` shape) with a nil `Optional`. -/
def c2ArgB : GoArg := { ty := .ptrT c2TyB, pointee := some [("Optional", .ptrNil .stringT)] }

/-- A field whose validator token has unbalanced parentheses. -/
def c5Field : GoField := .mk "Age" [("validator", "min(()")] .intT

/-- A nullable string field with the built-in `trim` filter. -/
def c8Field : GoField := .mk "Name" [("filter", "trim")] (.ptrT .stringT)

/-- Record type carrying `c8Field`. -/
def c8Ty : GoType := .structT "MyStruct" "main" (.fcons c8Field .fnil)

/-- A record whose `Name *string` is nil. -/
def c8Arg : GoArg := { ty := .ptrT c8Ty, pointee := some [("Name", .ptrNil .stringT)] }

/-- The context `apply` builds for `trim` over the nil `Name` pointer. -/
def c8NullCtx : ValidationContext :=
  { value := .ptrNil .stringT, valueKind := .stringK, IsPointer := true,
    IsNull := true, Args := [], Options := defaultOptions }

/-- A `*int` argument: a pointer whose target is not a struct. -/
def ptrIntArg : GoArg := { ty := .ptrT .intT, pointee := none }

/-- A plain (non-pointer) struct argument for the C9 witness. -/
def nonPtrArg : GoArg := { ty := .intT, pointee := none }

/-- A simple valid record for the C3 witness: `Age int validator:"min(10)"`,
value 15. -/
def c3Field : GoField := .mk "Age" [("validator", "min(10)")] .intT

/-- Record type carrying `c3Field`. -/
def c3Ty : GoType := .structT "AgeStruct" "main" (.fcons c3Field .fnil)

/-- A `*AgeStruct` with `Age = 15`. -/
def c3Arg : GoArg := { ty := .ptrT c3Ty, pointee := some [("Age", .intV 15)] }

/- ### Claims -/

/-- C2 (code_bug evidence): the type-identity key does not disambiguate
same-named record types. `c2TyA` and `c2TyB` are distinct types (different
validator chains) declared with the same name in the same package — the
shapes of the repository's own `TestOptional` and `TestRequired` local
`MyStruct` types. Their cache keys coincide, so the second `Validate`
through a shared cache reuses the first type's schema: a nil `Optional`
passes even though the type declares `required` (last conjunct shows a
fresh compile of the same record correctly fails). -/
theorem same_name_types_share_cache_key_and_schema :
    c2TyA ≠ c2TyB
    ∧ typeKey c2TyA = typeKey c2TyB
    ∧ validateTwice uuidParseStub defaultOptions c2ArgA c2ArgB = some (true, true)
    ∧ validateResult uuidParseStub defaultOptions [] c2ArgB [] =
        .ok { valid := false, Error := none,
              FieldErrors := [{ Field := "Optional", Message := "this field is requiredd" }] } := by
  refine ⟨by decide, by decide, ?_, ?_⟩
  · rw [validateTwice_eq_fueled 100 uuidParseStub defaultOptions c2ArgA c2ArgB
      (by decide) (by decide)]
    decide
  · rw [validateResult_eq_fueled 100 uuidParseStub defaultOptions [] c2ArgB [] (by decide)]
    decide

/-- C5 (code_bug evidence): the token `min((` followed by `)` has unbalanced
parentheses, yet the parser silently strips every parenthesis and the field
compiles to a bound `min` rule with no arguments — no compile-time error of
any kind. A token such as `min(10`, whose last `)` is missing, does abort,
but with a raw slice-bounds runtime panic rather than a structured
compile error. -/
theorem unbalanced_parens_silently_truncated :
    extractFunctionInformation "min(()" = .ok ("min", [])
    ∧ compiledValidatorNames uuidParseStub c5Field defaultOptions = ["min"]
    ∧ compiledValidatorArgs uuidParseStub c5Field defaultOptions = [[]]
    ∧ extractFunctionInformation "min(10" = .error (.runtime "slice bounds out of range") := by
  refine ⟨by decide, by decide, by decide, by decide⟩

/-- C8 (code_bug evidence): the built-in `trim` filter on a nil `*string`
falls into its non-pointer branch, reads the dereferenced nil pointer as
the invalid reflect value, and returns the plain string `"<invalid Value>"`
— a fabricated non-null value of the wrong type. `Validate` then panics
when writing that string back into the `*string` field, instead of
preserving the null state. -/
theorem trim_on_null_pointer_panics :
    Trim c8NullCtx = .ok (.strV "<invalid Value>")
    ∧ validateResult uuidParseStub defaultOptions [] c8Arg [] =
        .error (.runtime
          "reflect.Set: value of type string is not assignable to type *string") := by
  refine ⟨by decide, ?_⟩
  rw [validateResult_eq_fueled 100 uuidParseStub defaultOptions [] c8Arg [] (by decide)]
  decide

/-- C9 counterexample: a `*int` — an input that is not a pointer to a
struct — does not produce a structural-error result at all: `Validate`
reaches the traversal loop and panics in `NumField`, so no
`ValidationResult` is returned. -/
theorem ptr_to_non_struct_panics_counterexample :
    validateResult uuidParseStub defaultOptions [] ptrIntArg [] =
      .error (.runtime "reflect: NumField of non-struct type") := by
  rw [validateResult_eq_fueled 100 uuidParseStub defaultOptions [] ptrIntArg [] (by decide)]
  decide

/-- C9 (amended): for an input whose type is not a pointer, `Validate`
returns a structural error distinct from validation failures: the top-level
`Error` is set, `FieldErrors` stays empty, `valid` is false, and the call
aborts before any field is evaluated — the slots and the cache are returned
untouched. (A pointer to a non-struct instead panics, per the
counterexample.) -/
theorem non_pointer_input_structural_error (up : UuidParseFn)
    (opts : ValidationOptions) (cache : Cache) (arg : GoArg) (trigger : List String)
    (h : arg.ty.kind ≠ .ptrK) :
    Validate up opts cache arg trigger =
      .ok ({ valid := false,
             Error := some (newValidationError
               ("Invalid input type. Expected struct pointer but found " ++
                 arg.ty.kind.toGoString)),
             FieldErrors := [] },
           arg.pointee, cache) := by
  unfold Validate
  simp [h]

/-- C9 witness: the amended theorem at a concrete non-pointer argument. -/
theorem non_pointer_input_structural_error_witness :
    (nonPtrArg.ty.kind ≠ GoKind.ptrK)
    ∧ Validate uuidParseStub defaultOptions [] nonPtrArg [] =
        .ok ({ valid := false,
               Error := some (newValidationError
                 "Invalid input type. Expected struct pointer but found int"),
               FieldErrors := [] },
             none, []) :=
  ⟨by decide,
   non_pointer_input_structural_error uuidParseStub defaultOptions [] nonPtrArg []
     (by decide)⟩

/-- C3: every `ValidationResult` that `Validate` returns satisfies the
contract: `valid` is true exactly when the top-level structural `Error` is
nil and the field-error list is empty. -/
theorem valid_iff_no_error_and_no_field_errors (up : UuidParseFn)
    (opts : ValidationOptions) (cache : Cache) (arg : GoArg) (trigger : List String)
    (res : ValidationResult)
    (h : validateResult up opts cache arg trigger = .ok res) :
    res.valid = true ↔ (res.Error = none ∧ res.FieldErrors = []) := by
  simp only [validateResult, Validate] at h
  by_cases hk : arg.ty.kind = .ptrK
  · rw [if_neg (by simp [hk])] at h
    split at h
    · simp [Except.map] at h
    · split at h
      · simp [Except.map] at h
      · simp [Except.map] at h
        subst h
        simp [List.isEmpty_iff]
  · rw [if_pos (by simpa using hk)] at h
    simp [Except.map] at h
    subst h
    simp

/-- C3 witness: the contract at a concrete valid record. -/
theorem valid_iff_no_error_and_no_field_errors_witness :
    validateResult uuidParseStub defaultOptions [] c3Arg [] =
      .ok { valid := true, Error := none, FieldErrors := [] }
    ∧ ((true : Bool) = true ↔
        ((none : Option ValidationError) = none ∧ ([] : List FieldError) = [])) := by
  have h : validateResult uuidParseStub defaultOptions [] c3Arg [] =
      .ok { valid := true, Error := none, FieldErrors := [] } := by
    rw [validateResult_eq_fueled 100 uuidParseStub defaultOptions [] c3Arg [] (by decide)]
    decide
  exact ⟨h, valid_iff_no_error_and_no_field_errors uuidParseStub defaultOptions [] c3Arg []
    { valid := true, Error := none, FieldErrors := [] } h⟩

/-- C1 counterexample: `Id *string` declares only `uuid4` — a nullable
field with no `required` rule — yet validating a record with `Id = nil`
yields one FieldError for that field, because `uuidFn` (unlike every other
built-in rule) returns false on null. -/
theorem uuid_rule_rejects_null_counterexample :
    validateResult uuidParseStub defaultOptions [] uuidArg [] =
      .ok { valid := false, Error := none,
            FieldErrors := [{ Field := "Id", Message := "Id: field validation failed" }] } := by
  rw [validateResult_eq_fueled 100 uuidParseStub defaultOptions [] uuidArg [] (by decide)]
  decide

/-- The null branch of `uuidFn` runs before any parse: for every parser
instance and version, a null context is rejected with no message. -/
theorem uuidFn_null (up : UuidParseFn) (version : Nat) (ctx : ValidationContext)
    (hkind : ctx.valueKind = .stringK) (hnull : ctx.IsNull = true) :
    uuidFn up version ctx = .ok { ok := false, errorMessage := "" } := by
  unfold uuidFn ValidationContext.ValueMustBeOfKind
  simp [hkind, hnull, Bind.bind, Except.bind]

/-- C7: for every compiled field spec carrying the `allow_zero` flag, when
the field's pointer is null, or its (dereferenced) value equals the type's
precomputed zero value, `apply` produces no FieldErrors and returns the
record's slots unchanged — neither validators nor filters run. -/
theorem allow_zero_skips_validators_and_filters (fc : FieldContext)
    (opts : ValidationOptions) (slots : Slots) (value : GoValue)
    (hflag : fc.isFlagSet AllowZero = true)
    (hslot : lookupSlot slots fc.fieldName = some value)
    (hzero : value.isNil = true
      ∨ (value.kind = .ptrK ∧ fc.isZero value.elem = true)
      ∨ (value.kind ≠ .ptrK ∧ fc.isZero value = true)) :
    fc.apply (some slots) opts = .ok ([], some slots) := by
  have hskip : allowZeroSkip fc value = true := by
    unfold allowZeroSkip
    rcases hzero with h | ⟨hp, hz⟩ | ⟨hp, hz⟩
    · have hk : value.kind = .ptrK := by
        cases value
        case ptrNil => rfl
        all_goals simp [GoValue.isNil] at h
      simp [hflag, hk, h]
    · simp [hflag, hp, hz]
    · simp [hflag, if_neg hp, hz]
  unfold FieldContext.apply
  simp [hslot, hskip]

/-- Field spec of `Count int validator:"min(10)" flags:"allow_zero"` (the
C7 witness bench; `c7fc_compiled` certifies it is what the compiler
produces). -/
def c7fc : FieldContext :=
  { validators := [{ fn := IsMin, name := "min", args := ["10"] }]
    filters := []
    fieldName := "Count"
    fieldKind := .intK
    fieldLabel := "Count"
    fieldMessageTemplate := ""
    hasLabel := false
    hasMessagTemplate := false
    triggers := ["all"]
    flags := ["allow_zero"]
    zeroValue := .intV 0 }

/-- The C7 bench field as declared. -/
def c7Field : GoField :=
  .mk "Count" [("validator", "min(10)"), ("flags", "allow_zero")] .intT

theorem c7fc_compiled :
    mustParseField uuidParseStub c7Field defaultOptions = .ok (some c7fc) := rfl

/-- C7 witness: the skip at a concrete zero-valued `int` field. -/
theorem allow_zero_skips_validators_and_filters_witness :
    c7fc.isFlagSet AllowZero = true
    ∧ lookupSlot [("Count", GoValue.intV 0)] c7fc.fieldName = some (.intV 0)
    ∧ ((GoValue.intV 0).kind ≠ GoKind.ptrK ∧ c7fc.isZero (.intV 0) = true)
    ∧ c7fc.apply (some [("Count", .intV 0)]) defaultOptions =
        .ok ([], some [("Count", .intV 0)]) :=
  ⟨by decide, by decide, by decide,
   allow_zero_skips_validators_and_filters c7fc defaultOptions
     [("Count", .intV 0)] (.intV 0) (by decide) (by decide)
     (Or.inr (Or.inr (by decide)))⟩

/-- Null handling of `IsMin`: when the call returns (no panic) on a null
context, it returns true. -/
theorem IsMin_null (ctx : ValidationContext) (out : ValidatorOutcome)
    (hnull : ctx.IsNull = true) (hok : IsMin ctx = .ok out) : out.ok = true := by
  unfold IsMin ValidationContext.ValueMustBeOfKind at hok
  simp only [Bind.bind, hnull] at hok
  split at hok
  · simp only [Except.bind] at hok
    split at hok
    · simp at hok
    · injection hok with h2
      exact h2 ▸ rfl
  · simp [Except.bind] at hok

/-- Null handling of `IsMax`. -/
theorem IsMax_null (ctx : ValidationContext) (out : ValidatorOutcome)
    (hnull : ctx.IsNull = true) (hok : IsMax ctx = .ok out) : out.ok = true := by
  unfold IsMax ValidationContext.ValueMustBeOfKind at hok
  simp only [Bind.bind, hnull] at hok
  split at hok
  · simp only [Except.bind] at hok
    split at hok
    · simp at hok
    · injection hok with h2
      exact h2 ▸ rfl
  · simp [Except.bind] at hok

/-- Null handling of `IsEnum`: the null test comes first and passes. -/
theorem IsEnum_null (ctx : ValidationContext) (out : ValidatorOutcome)
    (hnull : ctx.IsNull = true) (hok : IsEnum ctx = .ok out) : out.ok = true := by
  unfold IsEnum at hok
  simp only [hnull] at hok
  injection hok with h2
  exact h2 ▸ rfl

/-- Null handling of `IsEmail`. -/
theorem IsEmail_null (ctx : ValidationContext) (out : ValidatorOutcome)
    (hnull : ctx.IsNull = true) (hok : IsEmail ctx = .ok out) : out.ok = true := by
  unfold IsEmail ValidationContext.ValueMustBeOfKind at hok
  simp only [Bind.bind, hnull] at hok
  split at hok
  · simp only [Except.bind] at hok
    injection hok with h2
    exact h2 ▸ rfl
  · simp [Except.bind] at hok

/-- Null handling of `IsAlphaNumeric`. -/
theorem IsAlphaNumeric_null (ctx : ValidationContext) (out : ValidatorOutcome)
    (hnull : ctx.IsNull = true) (hok : IsAlphaNumeric ctx = .ok out) : out.ok = true := by
  unfold IsAlphaNumeric ValidationContext.ValueMustBeOfKind at hok
  simp only [Bind.bind, hnull] at hok
  split at hok
  · simp only [Except.bind] at hok
    injection hok with h2
    exact h2 ▸ rfl
  · simp [Except.bind] at hok

/-- The rule names whose registered callables may reject a null value. -/
def nullRejectingNames : List String :=
  ["required", "uuid1", "uuid2", "uuid3", "uuid4"]

/-- Every registered rule outside `nullRejectingNames` accepts a null value
whenever its call returns at all. -/
theorem validatorLookup_null_ok (up : UuidParseFn) (nm : String) (fn : ValidatorFn)
    (hlook : validatorLookup up nm = some fn)
    (hnm : nullRejectingNames.contains nm = false)
    (ctx : ValidationContext) (out : ValidatorOutcome)
    (hnull : ctx.IsNull = true) (hok : fn ctx = .ok out) : out.ok = true := by
  unfold validatorLookup at hlook
  split at hlook
  · simp [nullRejectingNames] at hnm
  · cases hlook; exact IsAlphaNumeric_null ctx out hnull hok
  · simp [nullRejectingNames] at hnm
  · simp [nullRejectingNames] at hnm
  · simp [nullRejectingNames] at hnm
  · simp [nullRejectingNames] at hnm
  · cases hlook; exact IsMin_null ctx out hnull hok
  · cases hlook; exact IsMax_null ctx out hnull hok
  · cases hlook; exact IsEnum_null ctx out hnull hok
  · cases hlook; exact IsEmail_null ctx out hnull hok
  · simp at hlook

/-- Every validator the binding loop produces carries its registry
callable. -/
theorem bindValidators_lookup (up : UuidParseFn) (fieldName : String) :
    ∀ (toks : List String) (vs : List FieldValueValidator),
      bindValidators up fieldName toks = .ok vs →
      ∀ v ∈ vs, validatorLookup up v.name = some v.fn
  | [], vs => by
    intro h v hv
    simp [bindValidators] at h
    subst h
    simp at hv
  | tok :: rest, vs => by
    intro h v hv
    have ih := bindValidators_lookup up fieldName rest
    unfold bindValidators at h
    simp only [Bind.bind] at h
    cases he : extractFunctionInformation tok with
    | error p => rw [he] at h; simp [Except.bind] at h
    | ok pr =>
      rw [he] at h
      simp only [Except.bind] at h
      cases hl : validatorLookup up pr.1 with
      | none => rw [hl] at h; simp at h
      | some fn =>
        rw [hl] at h
        simp only at h
        cases hb : bindValidators up fieldName rest with
        | error p => rw [hb] at h; simp [Except.bind] at h
        | ok more =>
          rw [hb] at h
          simp [Except.bind] at h
          subst h
          rcases List.mem_cons.mp hv with h1 | h1
          · subst h1; simpa using hl
          · exact ih more hb v h1

/-- Shape of a successfully compiled field: the context keeps the field's
name, the field is not lowercase-initial, and every bound validator carries
its registry callable. -/
theorem mustParseField_some (up : UuidParseFn) (n : String)
    (tags : List (String × String)) (ty : GoType)
    (opts : ValidationOptions) (fc : FieldContext)
    (h : mustParseField up (.mk n tags ty) opts = .ok (some fc)) :
    fc.fieldName = n ∧
    isLowerInitial n = false ∧
    (∀ v ∈ fc.validators, validatorLookup up v.name = some v.fn) := by
  unfold mustParseField at h
  dsimp only at h
  split at h
  · simp at h
  · next hlow =>
    split at h
    · simp at h
    · simp only [Bind.bind] at h
      cases hvt : tagLookup tags opts.ValidatorTagName with
      | none =>
        rw [hvt] at h
        dsimp only [Except.bind] at h
        cases hft : tagLookup tags opts.FilterTagName with
        | none =>
          rw [hft] at h
          dsimp only at h
          simp at h
          subst h
          refine ⟨rfl, by simpa using hlow, ?_⟩
          intro v hv
          simp at hv
        | some ft =>
          rw [hft] at h
          dsimp only at h
          cases hbf : bindFilters n (splitChar ft '|') with
          | error p => rw [hbf] at h; simp [Except.bind] at h
          | ok fls =>
            rw [hbf] at h
            dsimp only at h
            simp at h
            subst h
            refine ⟨rfl, by simpa using hlow, ?_⟩
            intro v hv
            simp at hv
      | some vt =>
        rw [hvt] at h
        dsimp only at h
        cases hbv : bindValidators up n (splitChar vt '|') with
        | error p => rw [hbv] at h; simp [Except.bind] at h
        | ok vls =>
          rw [hbv] at h
          dsimp only [Except.bind] at h
          cases hft : tagLookup tags opts.FilterTagName with
          | none =>
            rw [hft] at h
            dsimp only at h
            simp at h
            subst h
            refine ⟨rfl, by simpa using hlow, ?_⟩
            intro v hv
            dsimp only at hv
            exact bindValidators_lookup up n _ vls hbv v hv
          | some ft =>
            rw [hft] at h
            dsimp only at h
            cases hbf : bindFilters n (splitChar ft '|') with
            | error p => rw [hbf] at h; simp [Except.bind] at h
            | ok fls =>
              rw [hbf] at h
              dsimp only at h
              simp at h
              subst h
              refine ⟨rfl, by simpa using hlow, ?_⟩
              intro v hv
              dsimp only at hv
              exact bindValidators_lookup up n _ vls hbv v hv

/-- With a null value, a chain of registry-bound validators outside
`nullRejectingNames` accumulates no errors (each one returns true or
panics). -/
theorem runValidators_null_no_errors (up : UuidParseFn) (fc : FieldContext)
    (opts : ValidationOptions) (ispointer : Bool) (value : GoValue)
    (vs : List FieldValueValidator) :
    ∀ (errs : List FieldError) (st : Bool),
      (∀ v ∈ vs, validatorLookup up v.name = some v.fn ∧
        nullRejectingNames.contains v.name = false) →
      runValidators fc opts ispointer true value vs = .ok (errs, st) →
      errs = [] := by
  induction vs with
  | nil =>
    intro errs st hv h
    simp [runValidators] at h
    exact h.1
  | cons v rest ih =>
    intro errs st hv h
    unfold runValidators at h
    try dsimp only at h
    cases hf : v.fn { value := value, valueKind := fc.fieldKind, IsPointer := ispointer, IsNull := true, Args := v.args, Options := opts } with
    | error p => rw [hf] at h; simp at h
    | ok out =>
      rw [hf] at h
      try dsimp only at h
      obtain ⟨hlk, hnm⟩ := hv v (List.mem_cons_self v rest)
      have hko : out.ok = true :=
        validatorLookup_null_ok up v.name v.fn hlk hnm _ out rfl hf
      rw [hko] at h
      try dsimp only at h
      exact ih errs st (fun w hw => hv w (List.mem_cons_of_mem v hw)) (by simpa using h)

/-- The C1 witness bench field: `Optional *string validator:"min(10)|max(20)"`. -/
def c1wField : GoField := .mk "Optional" [("validator", "min(10)|max(20)")] (.ptrT .stringT)

/-- C1 (amended): a nullable field whose compiled validator chain avoids
`required` and `uuid1..uuid4` yields zero FieldErrors on a null value —
whichever other registered rules it declares, and whether or not the run
panics in a later filter. -/
theorem null_field_without_required_or_uuid_yields_no_errors
    (up : UuidParseFn) (field : GoField) (opts : ValidationOptions)
    (slots : Slots) (t : GoType)
    (hnames : (compiledValidatorNames up field opts).all
      (fun nm => !(nullRejectingNames.contains nm)) = true)
    (hslot : lookupSlot slots field.fname = some (.ptrNil t)) :
    errorsOf (compileThenApply up field opts slots) = [] := by
  unfold compileThenApply
  cases hp : mustParseField up field opts with
  | error p => simp [errorsOf]
  | ok o =>
    cases o with
    | none => simp [errorsOf]
    | some fc =>
      cases field with
      | mk n tags ty =>
        obtain ⟨hname, hlow2, hbound⟩ := mustParseField_some up n tags ty opts fc hp
        have hnm : ∀ v ∈ fc.validators, nullRejectingNames.contains v.name = false := by
          intro v hv
          have hall : (fc.validators.map (fun w => w.name)).all
              (fun nm => !(nullRejectingNames.contains nm)) = true := by
            unfold compiledValidatorNames at hnames
            rw [hp] at hnames
            exact hnames
          have := List.all_eq_true.mp hall v.name (List.mem_map_of_mem _ hv)
          simpa using this
        dsimp [GoField.fname] at hslot
        unfold FieldContext.apply
        dsimp only
        rw [hname, hslot]
        dsimp only [isPointerOf, isNullOf, GoValue.kind, GoValue.isNil]
        by_cases hz : allowZeroSkip fc (.ptrNil t)
        · simp [hz, errorsOf]
        · simp only [hz, Bool.false_eq_true, if_false]
          simp only [decide_True, if_true]
          cases hr : runValidators fc opts true true (.ptrNil t) fc.validators with
          | error p => simp [errorsOf]
          | ok pr =>
            obtain ⟨ev, sv⟩ := pr
            have he : ev = [] :=
              runValidators_null_no_errors up fc opts true (.ptrNil t)
                fc.validators ev sv (fun w hw => ⟨hbound w hw, hnm w hw⟩) hr
            cases sv with
            | true => simp [errorsOf, he]
            | false =>
              simp only [Bool.false_eq_true, if_false]
              cases hrf : runFilters fc opts true true fc.filters (.ptrNil t) with
              | error p => simp [errorsOf]
              | ok v2 => simp [errorsOf, he]

/-- C1 witness: the amended theorem at `Optional *string
validator:"min(10)|max(20)"` with a nil value. -/
theorem null_field_without_required_or_uuid_yields_no_errors_witness :
    ((compiledValidatorNames uuidParseStub c1wField defaultOptions).all
      (fun nm => !(nullRejectingNames.contains nm)) = true)
    ∧ lookupSlot [("Optional", GoValue.ptrNil .stringT)] c1wField.fname =
        some (.ptrNil .stringT)
    ∧ errorsOf (compileThenApply uuidParseStub c1wField defaultOptions
        [("Optional", .ptrNil .stringT)]) = [] :=
  ⟨by decide, by decide,
   null_field_without_required_or_uuid_yields_no_errors uuidParseStub c1wField
     defaultOptions [("Optional", .ptrNil .stringT)] .stringT (by decide) (by decide)⟩

/-- A compiled field context never carries a lowercase-initial name. -/
theorem mustParseField_some_not_lower (up : UuidParseFn) (field : GoField)
    (opts : ValidationOptions) (fc : FieldContext)
    (h : mustParseField up field opts = .ok (some fc)) :
    isLowerInitial fc.fieldName = false := by
  cases field with
  | mk n tags ty =>
    obtain ⟨h1, h2, _⟩ := mustParseField_some up n tags ty opts fc h
    rw [h1]
    exact h2

/-- Every context produced by one pass over a struct's fields has a
non-lowercase name. -/
theorem parseLeaves_not_lower (up : UuidParseFn) (opts : ValidationOptions) :
    ∀ (fs : GoFieldList) (cs : List FieldContext),
      parseLeaves up opts fs = .ok cs →
      ∀ fc ∈ cs, isLowerInitial fc.fieldName = false
  | .fnil, cs => by
    intro h fc hfc
    simp [parseLeaves] at h
    subst h
    simp at hfc
  | .fcons (.mk n tags ty) rest, cs => by
    intro h fc hfc
    have ih := parseLeaves_not_lower up opts rest
    unfold parseLeaves at h
    split at h
    · exact ih cs h fc hfc
    · simp only [Bind.bind] at h
      cases hm : mustParseField up (GoField.mk n tags ty) opts with
      | error p => rw [hm] at h; simp [Except.bind] at h
      | ok fo =>
        rw [hm] at h
        dsimp only [Except.bind] at h
        cases hl : parseLeaves up opts rest with
        | error p => rw [hl] at h; simp at h
        | ok cs2 =>
          rw [hl] at h
          dsimp only at h
          cases fo with
          | none =>
            simp at h
            subst h
            exact ih cs2 hl fc hfc
          | some f2 =>
            simp at h
            subst h
            rcases List.mem_cons.mp hfc with h1 | h1
            · subst h1
              exact mustParseField_some_not_lower up _ opts fc hm
            · exact ih cs2 hl fc h1

/-- The traversal loop preserves the no-lowercase-name invariant of its
accumulator. -/
theorem getStructFieldsLoop_not_lower (up : UuidParseFn) (opts : ValidationOptions) :
    ∀ (n : Nat) (stack : List GoType) (acc cs : List FieldContext),
      stackSize stack < n →
      getStructFieldsLoop up opts stack acc = .ok cs →
      (∀ fc ∈ acc, isLowerInitial fc.fieldName = false) →
      ∀ fc ∈ cs, isLowerInitial fc.fieldName = false := by
  intro n
  induction n with
  | zero => intro stack acc cs h; omega
  | succ m ih =>
    intro stack acc cs hlt hloop hacc
    cases stack with
    | nil =>
      rw [getStructFieldsLoop.eq_def] at hloop
      simp at hloop
      subst hloop
      exact hacc
    | cons t rest =>
      cases t with
      | structT a b fs =>
        rw [getStructFieldsLoop.eq_def] at hloop
        dsimp only at hloop
        cases hp : parseLeaves up opts fs with
        | error p => rw [hp] at hloop; simp at hloop
        | ok lcs =>
          rw [hp] at hloop
          dsimp only at hloop
          refine ih ((pushedOf fs).reverse ++ rest) (acc ++ lcs) cs ?_ hloop ?_
          · have h1 := loop_step_lt a b fs rest
            simp [stackSize, GoType.size] at hlt h1 ⊢
            omega
          · intro fc hfc
            rcases List.mem_append.mp hfc with h1 | h1
            · exact hacc fc h1
            · exact parseLeaves_not_lower up opts fs lcs hp fc h1
      | stringT => rw [getStructFieldsLoop.eq_def] at hloop; simp at hloop
      | intT => rw [getStructFieldsLoop.eq_def] at hloop; simp at hloop
      | uintT => rw [getStructFieldsLoop.eq_def] at hloop; simp at hloop
      | boolT => rw [getStructFieldsLoop.eq_def] at hloop; simp at hloop
      | ptrT e => rw [getStructFieldsLoop.eq_def] at hloop; simp at hloop

/-- C10: a struct field whose name begins with a lowercase ASCII letter is
never compiled — `mustParseField` skips it whatever tags it carries — and
consequently no field spec in any compiled schema has a lowercase-initial
name. -/
theorem lowercase_fields_never_compiled :
    (∀ (up : UuidParseFn) (field : GoField) (opts : ValidationOptions),
      isLowerInitial field.fname = true → mustParseField up field opts = .ok none)
    ∧ (∀ (up : UuidParseFn) (opts : ValidationOptions) (t : GoType)
        (cs : List FieldContext),
        getStructFieldsLoop up opts [t] [] = .ok cs →
        ∀ fc ∈ cs, isLowerInitial fc.fieldName = false) := by
  constructor
  · intro up field opts h
    cases field with
    | mk n tags ty =>
      simp only [GoField.fname] at h
      unfold mustParseField
      dsimp only
      simp [h]
  · intro up opts t cs hloop
    exact getStructFieldsLoop_not_lower up opts (stackSize [t] + 1) [t] [] cs
      (by omega) hloop (by simp)

/-- A lowercase-initial field with validator tags (the C10 witness bench). -/
def lowerField : GoField := .mk "age" [("validator", "min(2)")] .intT

/-- An exported sibling field. -/
def c10UpperField : GoField := .mk "Bar" [("validator", "min(10)")] .intT

/-- Record type with one unexported and one exported tagged field. -/
def c10Ty : GoType :=
  .structT "LowStruct" "main" (.fcons lowerField (.fcons c10UpperField .fnil))

/-- The only spec compiled from `c10Ty` (the exported `Bar`). -/
def c10fc : FieldContext :=
  { validators := [{ fn := IsMin, name := "min", args := ["10"] }]
    filters := []
    fieldName := "Bar"
    fieldKind := .intK
    fieldLabel := "Bar"
    fieldMessageTemplate := ""
    hasLabel := false
    hasMessagTemplate := false
    triggers := ["all"]
    flags := []
    zeroValue := .intV 0 }

/-- C10 witness: the tagged lowercase field is skipped, and the compiled
schema of the two-field record holds only the exported field's spec. -/
theorem lowercase_fields_never_compiled_witness :
    isLowerInitial lowerField.fname = true
    ∧ mustParseField uuidParseStub lowerField defaultOptions = .ok none
    ∧ getStructFieldsLoop uuidParseStub defaultOptions [c10Ty] [] = .ok [c10fc]
    ∧ ∀ fc ∈ [c10fc], isLowerInitial fc.fieldName = false := by
  have hl : getStructFieldsLoop uuidParseStub defaultOptions [c10Ty] [] = .ok [c10fc] := by
    rw [← getStructFieldsLoop_eq_fueled uuidParseStub defaultOptions 100 [c10Ty] [] (by decide)]
    rfl
  exact ⟨by decide,
    (lowercase_fields_never_compiled).1 uuidParseStub lowerField defaultOptions (by decide),
    hl,
    (lowercase_fields_never_compiled).2 uuidParseStub defaultOptions c10Ty [c10fc] hl⟩

/- ### Order preservation (C6) -/

/-- Independent, in-declaration-order outcomes of a validator list
(following the spec's wording of P6: each declared rule judged on the
field's pre-filter value, one FieldError per failure, declaration order). -/
def declaredOrderErrorsList (fc : FieldContext) (opts : ValidationOptions)
    (ispointer isnull : Bool) (value : GoValue)
    (vs : List FieldValueValidator) : List FieldError :=
  vs.filterMap (fun v =>
    match v.fn { value := value, valueKind := fc.fieldKind, IsPointer := ispointer, IsNull := isnull, Args := v.args, Options := opts } with
    | .error _ => none
    | .ok out =>
      if out.ok then none
      else some (buildFieldError fc opts v.name out.errorMessage))

/-- Specialisation to a field's full declared chain. -/
def declaredOrderErrors (fc : FieldContext) (opts : ValidationOptions)
    (ispointer isnull : Bool) (value : GoValue) : List FieldError :=
  declaredOrderErrorsList fc opts ispointer isnull value fc.validators

/-- With `StopOnFirstError` off, the validator loop's accumulated errors
are exactly the independent in-order outcomes. -/
theorem runValidators_order (fc : FieldContext) (opts : ValidationOptions)
    (ispointer isnull : Bool) (value : GoValue)
    (hstop : opts.StopOnFirstError = false) :
    ∀ (vs : List FieldValueValidator) (errs : List FieldError) (st : Bool),
      runValidators fc opts ispointer isnull value vs = .ok (errs, st) →
      errs = declaredOrderErrorsList fc opts ispointer isnull value vs := by
  intro vs
  induction vs with
  | nil =>
    intro errs st h
    simp [runValidators] at h
    simp [declaredOrderErrorsList, h.1]
  | cons v rest ih =>
    intro errs st h
    unfold runValidators at h
    try dsimp only at h
    cases hf : v.fn { value := value, valueKind := fc.fieldKind, IsPointer := ispointer, IsNull := isnull, Args := v.args, Options := opts } with
    | error p => rw [hf] at h; simp at h
    | ok out =>
      rw [hf] at h
      try dsimp only at h
      cases hout : out.ok with
      | true =>
        rw [hout] at h
        try dsimp only at h
        simp only [declaredOrderErrorsList, List.filterMap_cons, hf, hout, if_true]
        exact ih errs st (by simpa using h)
      | false =>
        rw [hout] at h
        simp only [Bool.false_eq_true, if_false, hstop] at h
        cases hrest : runValidators fc opts ispointer isnull value rest with
        | error p => rw [hrest] at h; simp at h
        | ok pr =>
          obtain ⟨e2, s2⟩ := pr
          rw [hrest] at h
          try dsimp only at h
          simp at h
          have := ih e2 s2 hrest
          simp only [declaredOrderErrorsList, List.filterMap_cons, hf, hout,
            Bool.false_eq_true, if_false]
          rw [← h.1, this]
          rfl

/-- With `StopOnFirstError` off, `apply` reports exactly the in-order
outcomes of the field's declared chain (or nothing at all under the
`AllowZero` skip); the filter loop contributes no errors. -/
theorem apply_errors_in_declared_order (fc : FieldContext)
    (opts : ValidationOptions) (slots : Slots) (value : GoValue)
    (errs : List FieldError) (slots2 : Option Slots)
    (hstop : opts.StopOnFirstError = false)
    (hslot : lookupSlot slots fc.fieldName = some value)
    (happ : fc.apply (some slots) opts = .ok (errs, slots2)) :
    errs = if allowZeroSkip fc value then []
           else declaredOrderErrors fc opts (isPointerOf value) (isNullOf value) value := by
  unfold FieldContext.apply at happ
  dsimp only at happ
  rw [hslot] at happ
  dsimp only at happ
  by_cases hz : allowZeroSkip fc value
  · simp [hz] at happ
    simp [hz, happ.1.symm]
  · simp only [hz, Bool.false_eq_true, if_false] at happ ⊢
    cases hr : runValidators fc opts (isPointerOf value) (isNullOf value) value fc.validators with
    | error p => rw [hr] at happ; simp at happ
    | ok pr =>
      obtain ⟨ev, sv⟩ := pr
      rw [hr] at happ
      dsimp only at happ
      have hord := runValidators_order fc opts (isPointerOf value) (isNullOf value)
        value hstop fc.validators ev sv hr
      cases sv with
      | true =>
        simp at happ
        rw [happ.1.symm, hord]
        rfl
      | false =>
        simp only [Bool.false_eq_true, if_false] at happ
        cases hrf : runFilters fc opts (isPointerOf value) (isNullOf value) fc.filters value with
        | error p => rw [hrf] at happ; simp at happ
        | ok v2 =>
          rw [hrf] at happ
          simp at happ
          rw [happ.1.symm, hord]
          rfl

/-- The per-field loop of `Validate` concatenates, in schema order, one
error segment per activated field, each segment produced by that field's
`apply`. -/
theorem runFields_segments (opts : ValidationOptions) (trig : String) :
    ∀ (fcs : List FieldContext) (slots : Option Slots)
      (errs : List FieldError) (slots2 : Option Slots),
      runFields opts trig fcs slots = .ok (errs, slots2) →
      ∃ segs : List (List FieldError),
        errs = segs.flatten ∧
        List.Forall₂
          (fun fc seg => ∃ s1 s2, FieldContext.apply fc s1 opts = .ok (seg, s2))
          (fcs.filter (fun fc => fc.activate trig)) segs := by
  intro fcs
  induction fcs with
  | nil =>
    intro slots errs slots2 h
    simp [runFields] at h
    exact ⟨[], by simp [h.1], by simp⟩
  | cons fc rest ih =>
    intro slots errs slots2 h
    unfold runFields at h
    by_cases hact : fc.activate trig = true
    · rw [if_neg (by simp [hact])] at h
      cases happ : fc.apply slots opts with
      | error p => rw [happ] at h; simp at h
      | ok pr =>
        obtain ⟨e1, s1⟩ := pr
        rw [happ] at h
        dsimp only at h
        cases hrest : runFields opts trig rest s1 with
        | error p => rw [hrest] at h; simp at h
        | ok pr2 =>
          obtain ⟨e2, s2⟩ := pr2
          rw [hrest] at h
          simp at h
          obtain ⟨segs2, hjoin, hall⟩ := ih s1 e2 s2 hrest
          refine ⟨e1 :: segs2, ?_, ?_⟩
          · rw [← h.1, hjoin]
            simp
          · simp only [List.filter_cons, hact, if_true]
            exact List.Forall₂.cons ⟨slots, s1, happ⟩ hall
    · rw [if_pos (by simp [hact])] at h
      obtain ⟨segs2, hjoin, hall⟩ := ih slots errs slots2 h
      refine ⟨segs2, hjoin, ?_⟩
      simp only [List.filter_cons, hact]
      simpa using hall

/-- The traversal loop only ever appends to its accumulator. -/
theorem getStructFieldsLoop_acc_prefix (up : UuidParseFn) (opts : ValidationOptions) :
    ∀ (n : Nat) (stack : List GoType) (acc cs : List FieldContext),
      stackSize stack < n →
      getStructFieldsLoop up opts stack acc = .ok cs →
      ∃ tail, cs = acc ++ tail := by
  intro n
  induction n with
  | zero => intro stack acc cs h; omega
  | succ m ih =>
    intro stack acc cs hlt hloop
    cases stack with
    | nil =>
      rw [getStructFieldsLoop.eq_def] at hloop
      simp at hloop
      exact ⟨[], by simp [hloop]⟩
    | cons t rest =>
      cases t with
      | structT a b fs =>
        rw [getStructFieldsLoop.eq_def] at hloop
        dsimp only at hloop
        cases hp : parseLeaves up opts fs with
        | error p => rw [hp] at hloop; simp at hloop
        | ok lcs =>
          rw [hp] at hloop
          dsimp only at hloop
          obtain ⟨tail, ht⟩ := ih ((pushedOf fs).reverse ++ rest) (acc ++ lcs) cs
            (by have h1 := loop_step_lt a b fs rest
                simp [stackSize, GoType.size] at hlt h1 ⊢
                omega)
            hloop
          exact ⟨lcs ++ tail, by simp [ht]⟩
      | stringT => rw [getStructFieldsLoop.eq_def] at hloop; simp at hloop
      | intT => rw [getStructFieldsLoop.eq_def] at hloop; simp at hloop
      | uintT => rw [getStructFieldsLoop.eq_def] at hloop; simp at hloop
      | boolT => rw [getStructFieldsLoop.eq_def] at hloop; simp at hloop
      | ptrT e => rw [getStructFieldsLoop.eq_def] at hloop; simp at hloop

/-- The compiled schema of a struct type starts with that struct's own
(direct, declaration-ordered) leaf specs; nested sub-record specs are
appended after them. -/
theorem schema_direct_fields_first (up : UuidParseFn) (opts : ValidationOptions)
    (a b : String) (fs : GoFieldList) (cs : List FieldContext)
    (hloop : getStructFieldsLoop up opts [GoType.structT a b fs] [] = .ok cs) :
    ∃ direct nested, parseLeaves up opts fs = .ok direct ∧ cs = direct ++ nested := by
  rw [getStructFieldsLoop.eq_def] at hloop
  dsimp only at hloop
  cases hp : parseLeaves up opts fs with
  | error p => rw [hp] at hloop; simp at hloop
  | ok lcs =>
    rw [hp] at hloop
    dsimp only at hloop
    obtain ⟨tail, ht⟩ := getStructFieldsLoop_acc_prefix up opts
      (stackSize ((pushedOf fs).reverse ++ []) + 1) _ _ cs (by omega) hloop
    exact ⟨lcs, tail, rfl, by simpa using ht⟩

/-- C6: (i) the compiled schema of a struct type lists the outer record's
direct leaf specs first — the in-declaration-order `parseLeaves` pass —
with nested sub-record specs appended after them; (ii) `Validate`'s
FieldErrors are the concatenation, in schema order, of one error segment
per activated field, each segment produced by that field's `apply`;
(iii) within one field (stop-on-first-error off), the reported segment is
exactly the independent outcomes of its declared rules in rule-declaration
order (empty under the `AllowZero` skip). -/
theorem error_and_schema_order_preserved :
    (∀ (up : UuidParseFn) (opts : ValidationOptions) (a b : String)
        (fs : GoFieldList) (cs : List FieldContext),
        getStructFieldsLoop up opts [GoType.structT a b fs] [] = .ok cs →
        ∃ direct nested, parseLeaves up opts fs = .ok direct ∧ cs = direct ++ nested)
    ∧ (∀ (opts : ValidationOptions) (trig : String) (fcs : List FieldContext)
        (slots : Option Slots) (errs : List FieldError) (slots2 : Option Slots),
        runFields opts trig fcs slots = .ok (errs, slots2) →
        ∃ segs : List (List FieldError),
          errs = segs.flatten ∧
          List.Forall₂
            (fun fc seg => ∃ s1 s2, FieldContext.apply fc s1 opts = .ok (seg, s2))
            (fcs.filter (fun fc => fc.activate trig)) segs)
    ∧ (∀ (fc : FieldContext) (opts : ValidationOptions) (slots : Slots)
        (value : GoValue) (errs : List FieldError) (slots2 : Option Slots),
        opts.StopOnFirstError = false →
        lookupSlot slots fc.fieldName = some value →
        fc.apply (some slots) opts = .ok (errs, slots2) →
        errs = if allowZeroSkip fc value then []
               else declaredOrderErrors fc opts (isPointerOf value) (isNullOf value) value) :=
  ⟨fun up opts a b fs cs h => schema_direct_fields_first up opts a b fs cs h,
   fun opts trig fcs slots errs slots2 h =>
     runFields_segments opts trig fcs slots errs slots2 h,
   fun fc opts slots value errs slots2 h1 h2 h3 =>
     apply_errors_in_declared_order fc opts slots value errs slots2 h1 h2 h3⟩

/-- Inner record of the C6 bench. -/
def c6InnerTy : GoType :=
  .structT "Inner" "main" (.fcons (.mk "B" [("validator", "min(5)")] .stringT) .fnil)

/-- Outer field list: leaf `A`, nested struct `In`, leaf `C`. -/
def c6OuterFields : GoFieldList :=
  .fcons (.mk "A" [("validator", "min(2)")] .intT)
    (.fcons (.mk "In" [] c6InnerTy)
      (.fcons (.mk "C" [("validator", "max(1)")] .intT) .fnil))

/-- Compiled spec of `A`. -/
def c6Afc : FieldContext :=
  { validators := [{ fn := IsMin, name := "min", args := ["2"] }]
    filters := []
    fieldName := "A"
    fieldKind := .intK
    fieldLabel := "A"
    fieldMessageTemplate := ""
    hasLabel := false
    hasMessagTemplate := false
    triggers := ["all"]
    flags := []
    zeroValue := .intV 0 }

/-- Compiled spec of `C`. -/
def c6Cfc : FieldContext :=
  { validators := [{ fn := IsMax, name := "max", args := ["1"] }]
    filters := []
    fieldName := "C"
    fieldKind := .intK
    fieldLabel := "C"
    fieldMessageTemplate := ""
    hasLabel := false
    hasMessagTemplate := false
    triggers := ["all"]
    flags := []
    zeroValue := .intV 0 }

/-- Compiled spec of the nested `B`. -/
def c6Bfc : FieldContext :=
  { validators := [{ fn := IsMin, name := "min", args := ["5"] }]
    filters := []
    fieldName := "B"
    fieldKind := .stringK
    fieldLabel := "B"
    fieldMessageTemplate := ""
    hasLabel := false
    hasMessagTemplate := false
    triggers := ["all"]
    flags := []
    zeroValue := .strV "" }

/-- A field spec declaring two failing rules, for the within-field order
instance. -/
def c6Dfc : FieldContext :=
  { validators := [{ fn := IsMin, name := "min", args := ["10"] },
                   { fn := IsMax, name := "max", args := ["-1"] }]
    filters := []
    fieldName := "D"
    fieldKind := .intK
    fieldLabel := "D"
    fieldMessageTemplate := ""
    hasLabel := false
    hasMessagTemplate := false
    triggers := ["all"]
    flags := []
    zeroValue := .intV 0 }

/-- C6 witness: the three order properties at concrete benches — a nested
record whose schema puts `A`, `C` before the nested `B`; a two-field run
whose errors concatenate in schema order; and a two-rule field whose
segment lists both failures in declaration order. -/
theorem error_and_schema_order_preserved_witness :
    (∃ direct nested,
        parseLeaves uuidParseStub defaultOptions c6OuterFields = .ok direct ∧
        [c6Afc, c6Cfc, c6Bfc] = direct ++ nested)
    ∧ (∃ segs : List (List FieldError),
        [{ Field := "A", Message := "value (0) must be at least 2" },
         { Field := "C", Message := "value (5) must not exceed 1" }] = segs.flatten ∧
        List.Forall₂
          (fun fc seg => ∃ s1 s2, FieldContext.apply fc s1 defaultOptions = .ok (seg, s2))
          ([c6Afc, c6Cfc].filter (fun fc => fc.activate "all")) segs)
    ∧ ([{ Field := "D", Message := "value (5) must be at least 10" },
        { Field := "D", Message := "value (5) must not exceed -1" }] =
        if allowZeroSkip c6Dfc (.intV 5) then []
        else declaredOrderErrors c6Dfc defaultOptions
          (isPointerOf (.intV 5)) (isNullOf (.intV 5)) (.intV 5)) := by
  refine ⟨?_, ?_, ?_⟩
  · refine (error_and_schema_order_preserved).1 uuidParseStub defaultOptions
      "Outer" "main" c6OuterFields [c6Afc, c6Cfc, c6Bfc] ?_
    rw [← getStructFieldsLoop_eq_fueled uuidParseStub defaultOptions 100
      [GoType.structT "Outer" "main" c6OuterFields] [] (by decide)]
    rfl
  · exact (error_and_schema_order_preserved).2.1 defaultOptions "all" [c6Afc, c6Cfc]
      (some [("A", .intV 0), ("C", .intV 5)])
      [{ Field := "A", Message := "value (0) must be at least 2" },
       { Field := "C", Message := "value (5) must not exceed 1" }]
      (some [("A", .intV 0), ("C", .intV 5)])
      (by decide)
  · exact (error_and_schema_order_preserved).2.2 c6Dfc defaultOptions
      [("D", .intV 5)] (.intV 5)
      [{ Field := "D", Message := "value (5) must be at least 10" },
       { Field := "D", Message := "value (5) must not exceed -1" }]
      (some [("D", .intV 5)])
      rfl (by decide) (by decide)

/- ### C4: filters run after failing validators -/

/-- Associativity of Go string concatenation. -/
theorem goStringAppendAssoc (a b c : String) : a ++ b ++ c = a ++ (b ++ c) := by
  cases a with
  | mk la =>
    cases b with
    | mk lb =>
      cases c with
      | mk lc =>
        show String.mk (la ++ lb ++ lc) = String.mk (la ++ (lb ++ lc))
        rw [List.append_assoc]

/-- The FieldError C4's failing `min(10)` produces for the value `s`. -/
def c4err (s : String) : FieldError :=
  { Field := "Name", Message := "length (" ++ s ++ ") must be at least 10" }

/-- The C4 bench field: `Name string validator:"min(10)" filter:"trim"`. -/
def c4Field : GoField := .mk "Name" [("validator", "min(10)"), ("filter", "trim")] .stringT

/-- Record type carrying `c4Field`. -/
def c4Ty : GoType := .structT "MyStruct" "main" (.fcons c4Field .fnil)

/-- A `*MyStruct` whose `Name` holds `s`. -/
def c4Arg (s : String) : GoArg := { ty := .ptrT c4Ty, pointee := some [("Name", .strV s)] }

/-- Compiled spec of `c4Field` (`c4fc_compiled` certifies it). -/
def c4fc : FieldContext :=
  { validators := [{ fn := IsMin, name := "min", args := ["10"] }]
    filters := [{ fn := Trim, name := "trim", args := [] }]
    fieldName := "Name"
    fieldKind := .stringK
    fieldLabel := "Name"
    fieldMessageTemplate := ""
    hasLabel := false
    hasMessagTemplate := false
    triggers := ["all"]
    flags := []
    zeroValue := .strV "" }

theorem c4fc_compiled :
    mustParseField uuidParseStub c4Field defaultOptions = .ok (some c4fc) := rfl

/-- C4: with stop-on-first-error disabled (the default options), a string
shorter than ten bytes fails `min(10)` — the field is reported invalid with
its FieldError — yet the `trim` filter still runs and the stored value
afterwards is the trimmed string. -/
theorem failing_validator_does_not_block_filter (s : String) (h : goLen s < 10) :
    validateResult uuidParseStub defaultOptions [] (c4Arg s) [] =
      .ok { valid := false, Error := none, FieldErrors := [c4err s] }
    ∧ validateSlots uuidParseStub defaultOptions [] (c4Arg s) [] =
      .ok (some [("Name", .strV (goTrimSpace s))]) := by
  have h10 : goParseInt "10" = some 10 := by decide
  have hm : ¬ ((10 : Int) ≤ (goLen s : Int)) := by exact_mod_cast Nat.not_le.mpr h
  have hmin : IsMin { value := .strV s, valueKind := .stringK, IsPointer := isPointerOf (.strV s), IsNull := isNullOf (.strV s), Args := ["10"], Options := defaultOptions } =
      .ok { ok := false, errorMessage := "length (" ++ s ++ ") must be at least 10" } := by
    unfold IsMin ValidationContext.ValueMustBeOfKind ValidationContext.ArgCount
      ValidationContext.IsValueOfKind ValidationContext.MustGetIntArg
      ValidationContext.GetValue
    simp [isPointerOf, isNullOf, GoValue.kind, minMaxKinds, h10, hm,
      GoValue.goStringVal, GoValue.format, Bind.bind, Except.bind,
      goStringAppendAssoc]
  have htrim : Trim { value := .strV s, valueKind := .stringK, IsPointer := isPointerOf (.strV s), IsNull := isNullOf (.strV s), Args := [], Options := defaultOptions } =
      .ok (.strV (goTrimSpace s)) := by
    unfold Trim ValidationContext.ValueMustBeOfKind ValidationContext.GetValue
    simp [isPointerOf, isNullOf, GoValue.kind, GoValue.goStringVal,
      Bind.bind, Except.bind]
  have happly : c4fc.apply (some [("Name", .strV s)]) defaultOptions =
      .ok ([c4err s], some [("Name", .strV (goTrimSpace s))]) := by
    unfold FieldContext.apply
    try dsimp only
    have hls : lookupSlot [("Name", GoValue.strV s)] "Name" = some (.strV s) := by
      simp [lookupSlot]
    rw [show c4fc.fieldName = "Name" from rfl, hls]
    try dsimp only
    rw [if_neg (by simp [allowZeroSkip, FieldContext.isFlagSet, c4fc])]
    unfold runValidators
    try dsimp only [c4fc]
    rw [hmin]
    try dsimp only
    unfold runValidators
    try dsimp only
    rw [show defaultOptions.StopOnFirstError = false from rfl]
    try dsimp only [Bool.false_eq_true, if_false]
    unfold runFilters
    try dsimp only
    rw [htrim]
    try dsimp only [goSet, GoValue.typeOf]
    rw [if_pos rfl]
    unfold runFilters
    try dsimp only
    simp [buildFieldError, c4fc, updateSlot]
    simp [c4err, show (0 : Nat) < ") must be at least 10".length from by decide]
  have hcomp : getStructFields uuidParseStub defaultOptions [] c4Ty =
      .ok ([c4fc], cacheStore [] (typeKey c4Ty) [c4fc]) := by
    rw [getStructFields_eq_fueled 100 uuidParseStub defaultOptions [] c4Ty (by decide)]
    rfl
  have hrun : runFields defaultOptions "all" [c4fc] (some [("Name", .strV s)]) =
      .ok ([c4err s], some [("Name", .strV (goTrimSpace s))]) := by
    unfold runFields
    rw [if_neg (by simp [FieldContext.activate, c4fc])]
    rw [happly]
    dsimp only
    unfold runFields
    rfl
  have hval : Validate uuidParseStub defaultOptions [] (c4Arg s) [] =
      .ok ({ valid := false, Error := none, FieldErrors := [c4err s] },
           some [("Name", .strV (goTrimSpace s))],
           cacheStore [] (typeKey c4Ty) [c4fc]) := by
    unfold Validate
    rw [if_neg (by simp [c4Arg, c4Ty, GoType.kind])]
    dsimp only [c4Arg, GoType.elemType]
    rw [hcomp]
    dsimp only
    rw [hrun]
    rfl
  constructor
  · unfold validateResult
    rw [hval]
    rfl
  · unfold validateSlots
    rw [hval]
    rfl

/-- C4 witness: the value `"  hi  "` (six bytes, so `min(10)` fails) is
trimmed to `"hi"` while the field error is reported. -/
theorem failing_validator_does_not_block_filter_witness :
    (goLen "  hi  " < 10)
    ∧ validateResult uuidParseStub defaultOptions [] (c4Arg "  hi  ") [] =
        .ok { valid := false, Error := none,
              FieldErrors := [{ Field := "Name", Message := "length (  hi  ) must be at least 10" }] }
    ∧ validateSlots uuidParseStub defaultOptions [] (c4Arg "  hi  ") [] =
        .ok (some [("Name", .strV "hi")]) := by
  have hres := failing_validator_does_not_block_filter "  hi  " (by decide)
  refine ⟨by decide, ?_, ?_⟩
  · rw [hres.1]
    decide
  · rw [hres.2]
    decide

end StructValidator
